import Mathlib

/-! News-feed accordion renderer (`resources/js/index.js`)

A shallow embedding of the rendering script and the properties of its helpers,
of `loadTopic` and of the `DOMContentLoaded` handler.

A JavaScript string is the list of its UTF-16 code units, so `length`, `substring`
and `replaceAll` count what the script counts. A value that the script expects to
be a string but that the page or the feed may provide as anything is a `Val`. The
browser services the script calls (`encodeURIComponent`, `DOMParser`, `fetch`) are
parameters.
-/

set_option autoImplicit false

namespace XBoard

/-! ## Strings -/

/-- A JavaScript string: its UTF-16 code units, in order. -/
abbrev Str := List Nat

/-- The UTF-16 code units of one character: itself in the Basic Multilingual Plane,
a surrogate pair above it. -/
def utf16 (c : Char) : List Nat :=
  if c.toNat < 0x10000 then [c.toNat]
  else [0xD800 + (c.toNat - 0x10000) / 0x400, 0xDC00 + (c.toNat - 0x10000) % 0x400]

/-- The JavaScript string a literal of the source denotes. -/
def lit (s : String) : Str := s.toList.flatMap utf16

/-- The code unit of a character of the Basic Multilingual Plane. -/
def u (c : Char) : Nat := c.toNat

/-- Worker of `replaceAll`: scans left to right; `skip` counts the code units of
the match found last that are still to be passed over. -/
def replaceAllFrom (pat rep : Str) : Nat → Str → Str
  | _, [] => []
  | skip + 1, _ :: cs => replaceAllFrom pat rep skip cs
  | 0, c :: cs =>
    if pat.isPrefixOf (c :: cs) then rep ++ replaceAllFrom pat rep (pat.length - 1) cs
    else c :: replaceAllFrom pat rep 0 cs

/-- The call `s.replaceAll(pat, rep)` with a string pattern and a replacement that
holds no `$`: every non-overlapping occurrence of `pat`, found left to right, is
replaced by `rep`. An empty pattern matches before every code unit and at the end. -/
def replaceAll (s pat rep : Str) : Str :=
  if pat = [] then rep ++ s.flatMap (fun c => c :: rep)
  else replaceAllFrom pat rep 0 s

/-- The call `s.includes(pat)`: `pat` occurs somewhere in `s`. -/
def includes : Str → Str → Bool
  | [], pat => pat.isPrefixOf []
  | c :: cs, pat => pat.isPrefixOf (c :: cs) || includes cs pat

/-- The call `s.endsWith(pat)`. -/
def endsWith (s pat : Str) : Bool := pat.isSuffixOf s

/-- The code units `String.prototype.trim` removes: ECMAScript `WhiteSpace` and
`LineTerminator`. -/
def isJsSpace (n : Nat) : Bool :=
  n = 0x09 || n = 0x0A || n = 0x0B || n = 0x0C || n = 0x0D || n = 0x20 || n = 0xA0 ||
  n = 0x1680 || (0x2000 ≤ n && n ≤ 0x200A) || n = 0x2028 || n = 0x2029 || n = 0x202F ||
  n = 0x205F || n = 0x3000 || n = 0xFEFF

/-- The call `s.trim()`: leading and trailing white space removed. -/
def trim (s : Str) : Str := ((s.dropWhile isJsSpace).reverse.dropWhile isJsSpace).reverse

/-- How `+` and template literals write a non-negative integer: decimal digits. -/
def numToStr (n : Nat) : Str := (Nat.toDigits 10 n).map Char.toNat

/-! ## Escaping helpers -/

/-- The function `escapeHtml(s)` on a string. -/
def escapeHtml (s : Str) : Str :=
  if s = [] then []
  else
    replaceAll (replaceAll (replaceAll s (lit "&") (lit "&amp;")) (lit "<") (lit "&lt;"))
      (lit ">") (lit "&gt;")

/-- The function `escapeAttr(s)` on a string: a backslash goes before each single
quote, each double quote becomes `&quot;`. -/
def escapeAttr (s : Str) : Str :=
  if s = [] then []
  else replaceAll (replaceAll s (lit "'") (lit "\\'")) (lit "\"") (lit "&quot;")

/-- Number of backslashes that stand directly before the end of `pre`. -/
def trailingBackslashes (pre : Str) : Nat := (pre.reverse.takeWhile (· == u '\\')).length

/-- Every single quote of `s` has an odd number of backslashes directly before it,
so none of them closes a single-quoted JavaScript string literal that holds `s`. -/
def QuotesEscaped (s : Str) : Prop :=
  ∀ pre post : Str, s = pre ++ u '\'' :: post → trailingBackslashes pre % 2 = 1

/-- What `escapeHtml` writes for one code unit. -/
def escapeHtmlUnit (c : Nat) : Str :=
  if c = u '&' then lit "&amp;"
  else if c = u '<' then lit "&lt;"
  else if c = u '>' then lit "&gt;"
  else [c]

/-- What `escapeAttr` writes for one code unit. -/
def escapeAttrUnit (c : Nat) : Str :=
  if c = u '\'' then lit "\\'"
  else if c = u '"' then lit "&quot;"
  else [c]

/-- The text `post` that follows an ampersand completes one of the entities
`&amp;`, `&lt;`, `&gt;`. -/
def EntityTail (post : Str) : Prop :=
  lit "amp;" <+: post ∨ lit "lt;" <+: post ∨ lit "gt;" <+: post

/-- Every ampersand of `s` is the first code unit of `&amp;`, `&lt;` or `&gt;`. -/
def AmpersandsAreEntities (s : Str) : Prop :=
  ∀ pre post : Str, s = pre ++ u '&' :: post → EntityTail post

/-! ## Values and browser services -/

/-- A JavaScript value in a place where the script expects a string. -/
inductive Val
  /-- The value `undefined`, also what reading an absent property gives. -/
  | undefined
  /-- The value `null`. -/
  | null
  /-- A string. -/
  | str (s : Str)
  /-- Any other value (number, boolean, array, object, function): whether it is
  truthy, and the string it converts to (`none` when the conversion throws). -/
  | other (truthy : Bool) (text : Option Str)
deriving DecidableEq

/-- Truthiness, as `!v` and `||` test it. -/
def Val.truthy : Val → Bool
  | .undefined => false
  | .null => false
  | .str s => decide (s ≠ [])
  | .other truthy _ => truthy

/-- The expression `a || d`. -/
def Val.orElse (a d : Val) : Val := if a.truthy then a else d

/-- The value is a string, `undefined` or `null`. -/
def Val.isStringOrAbsent : Val → Bool
  | .other _ _ => false
  | _ => true

/-- The string a value is when it is a non-empty string. -/
def Val.nonEmptyText : Val → Option Str
  | .str s => if s = [] then none else some s
  | _ => none

/-- The string a value is when it is a string, the empty string otherwise. -/
def Val.text : Val → Str
  | .str s => s
  | _ => []

/-- The first non-empty string of a list of string-or-absent values. -/
def firstNonEmpty : List (Option Str) → Option Str
  | [] => none
  | some s :: rest => if s = [] then firstNonEmpty rest else some s
  | none :: rest => firstNonEmpty rest

/-- The browser services the script calls. -/
structure Browser where
  /-- The global function `encodeURIComponent`; `none` when it throws a `URIError`
  (the text has a lone surrogate). -/
  encodeURIComponent : Str → Option Str
  /-- The `message` of that `URIError`. -/
  uriError : Str
  /-- The value of `new DOMParser().parseFromString(html, 'text/html').body.textContent`. -/
  textContent : Str → Str
  /-- The `message` of the `TypeError` the engine raises at the expression named:
  a call of what is not a function, a property read on `null`, a failed conversion
  to a string. -/
  typeError : Str → Str

/-- The string whose escaping is `escapeAttr(v)`, and `escapeHtml(v)`: both return
`""` for a falsy value and call `replaceAll` on any other, which throws unless the
value is a string. -/
def textOf (b : Browser) : Val → Except Str Str
  | .str s => .ok s
  | .other true _ => .error (b.typeError (lit "s.replaceAll"))
  | _ => .ok []

/-! ## Summary text and image extraction -/

/-- Lines 24-28 of `stripHtml`: the text is cut to `maxLength` code units when it is
longer, and trimmed at the end. -/
def summarize (text : Str) : Str :=
  let maxLength := 150
  let text := if text.length > maxLength then trim (text.take maxLength) ++ lit "..." else text
  trim text

/-- The function `stripHtml(html)`. A value that is not a string is converted to
one by `parseFromString`. -/
def stripHtml (b : Browser) : Val → Except Str Str
  | .str s => if s = [] then .ok [] else .ok (summarize (b.textContent s))
  | .other true (some text) => .ok (summarize (b.textContent text))
  | .other true none => .error (b.typeError (lit "html"))
  | _ => .ok []

/-- The summary as the claim words it: the text is trimmed first, and its trimmed
length decides on the ellipsis. -/
def summaryAsClaimed (p : Str) : Str :=
  if (trim p).length ≤ 150 then trim p else trim ((trim p).take 150) ++ lit "..."

/-- The lower-case form of an ASCII capital letter; any other unit is itself. Under
the flag `i` (without `u`) a unit matches an ASCII letter of the pattern exactly
when this form is that letter. -/
def toLowerUnit (n : Nat) : Nat := if 65 ≤ n ∧ n ≤ 90 then n + 32 else n

/-- A lower-case ASCII pattern matches the start of `s` under the flag `i`. -/
def startsWithNoCase : Str → Str → Bool
  | [], _ => true
  | _ :: _, [] => false
  | p :: ps, c :: cs => toLowerUnit c == p && startsWithNoCase ps cs

/-- The class `["']`. -/
def isQuote (c : Nat) : Bool := c == u '"' || c == u '\''

/-- The part `src=["']([^"']+)["']` of the pattern, matched at the start of `s`: the
captured group. The greedy group runs to the first quote after it and cannot end
earlier, since a quote has to follow it. -/
def matchSrc (s : Str) : Option Str :=
  if startsWithNoCase (lit "src=") s then
    match s.drop 4 with
    | [] => none
    | q :: rest =>
      if isQuote q then
        match rest.takeWhile (fun c => !isQuote c), rest.dropWhile (fun c => !isQuote c) with
        | [], _ => none
        | _ :: _, [] => none
        | c :: cap, _ :: _ => some (c :: cap)
      else none
  else none

/-- The part `[^>]+src=["']([^"']+)["']` of the pattern, matched at the start of `s`.
The greedy `[^>]+` takes as many units as it can: a match further right wins. -/
def matchTag : Str → Option Str
  | [] => none
  | c :: cs =>
    if c = u '>' then none
    else
      match matchTag cs with
      | some r => some r
      | none => matchSrc cs

/-- The first match of `/<img[^>]+src=["']([^"']+)["']/i` in `s`, leftmost start
first: its captured group. -/
def firstImgSrc : Str → Option Str
  | [] => none
  | c :: cs =>
    match (if startsWithNoCase (lit "<img") (c :: cs) then matchTag (cs.drop 3) else none) with
    | some r => some r
    | none => firstImgSrc cs

/-- The function `extractImageFromContent(content)`: `null` for a falsy value, the
capture for a string, and a `TypeError` for any other value, which has no `match`. -/
def extractImageFromContent (b : Browser) : Val → Except Str (Option Str)
  | .str s => if s = [] then .ok none else .ok (firstImgSrc s)
  | .other true _ => .error (b.typeError (lit "content.match"))
  | _ => .ok none

/-- A way the pattern `/<img[^>]+src=["']([^"']+)["']/i` matches inside `content`:
after `pre` comes `<img` in any case, then the non-empty run `mid` without `>`,
then `src=` in any case, a quote, the non-empty capture `r` without quotes, and a
quote. -/
def ImgSrcMatch (content pre mid r : Str) : Prop :=
  ∃ (tag key : Str) (q1 q2 : Nat) (post : Str),
    content = pre ++ tag ++ mid ++ key ++ q1 :: r ++ q2 :: post ∧
    tag.map toLowerUnit = lit "<img" ∧ mid ≠ [] ∧ u '>' ∉ mid ∧
    key.map toLowerUnit = lit "src=" ∧ isQuote q1 = true ∧ isQuote q2 = true ∧
    r ≠ [] ∧ ∀ c ∈ r, isQuote c = false

/-- As `matchTag`, but taking the first `src=` of the tag instead of the last. -/
def matchTagFirst : Str → Option Str
  | [] => none
  | c :: cs =>
    if c = u '>' then none
    else
      match matchSrc cs with
      | some r => some r
      | none => matchTagFirst cs

/-- The image in `content` as the claim words it: the `src` of the first `<img` that
has one, read as the first `src="..."` of that tag. -/
def firstImgSrcAsClaimed : Str → Option Str
  | [] => none
  | c :: cs =>
    match (if startsWithNoCase (lit "<img") (c :: cs) then matchTagFirst (cs.drop 3)
      else none) with
    | some r => some r
    | none => firstImgSrcAsClaimed cs

/-- The constant `FALLBACK_IMAGE`. The text encoded is ASCII, so `encodeURIComponent`
returns. -/
def FALLBACK_IMAGE (b : Browser) : Str :=
  lit "data:image/svg+xml;charset=UTF-8," ++
    (b.encodeURIComponent
      (lit "<svg xmlns=\"http://www.w3.org/2000/svg\" width=\"800\" height=\"450\" viewBox=\"0 0 800 450\">" ++
        lit "<rect width=\"100%\" height=\"100%\" fill=\"#ddd\"/><text x=\"50%\" y=\"50%\" dominant-baseline=\"middle\" text-anchor=\"middle\" fill=\"#666\" font-size=\"24\">No image</text></svg>")).getD []

/-! ## Feed items and their cards -/

/-- The value of `it.enclosure`. -/
inductive Enclosure
  /-- The values `undefined` and `null`: `it.enclosure?.link` is `undefined`. -/
  | nullish
  /-- Any other value: its property `link`, `undefined` when it has none. -/
  | record (link : Val)
deriving DecidableEq

/-- One entry of the `items` list of the feed response. -/
inductive Item
  /-- The entry `null`: reading a property of it throws. -/
  | null
  /-- Any other entry: the properties the script reads, `undefined` when absent. A
  number, a boolean or an array has none of them; a string has `link` only, the
  method `String.prototype.link`, which is a value `other true`. -/
  | record (title link thumbnail content description contentSnippet : Val)
      (enclosure : Enclosure)
deriving DecidableEq

/-- The property read `it.title`, for an entry that is not `null`. -/
def Item.title : Item → Val
  | .record title _ _ _ _ _ _ => title
  | .null => Val.undefined

/-- The property read `it.link`, for an entry that is not `null`. -/
def Item.link : Item → Val
  | .record _ link _ _ _ _ _ => link
  | .null => Val.undefined

/-- The property read `it.thumbnail`, for an entry that is not `null`. -/
def Item.thumbnail : Item → Val
  | .record _ _ thumbnail _ _ _ _ => thumbnail
  | .null => Val.undefined

/-- The property read `it.content`, for an entry that is not `null`. -/
def Item.content : Item → Val
  | .record _ _ _ content _ _ _ => content
  | .null => Val.undefined

/-- The property read `it.description`, for an entry that is not `null`. -/
def Item.description : Item → Val
  | .record _ _ _ _ description _ _ => description
  | .null => Val.undefined

/-- The property read `it.contentSnippet`, for an entry that is not `null`. -/
def Item.contentSnippet : Item → Val
  | .record _ _ _ _ _ contentSnippet _ => contentSnippet
  | .null => Val.undefined

/-- The expression `it.enclosure?.link`, for an entry that is not `null`. -/
def Item.enclosureLink : Item → Val
  | .record _ _ _ _ _ _ (.record link) => link
  | _ => Val.undefined

/-- The entry is an object of the shape the interface names: every property read
is a string or absent, the enclosure an object or absent. -/
def Item.wellShaped : Item → Bool
  | .null => false
  | .record title link thumbnail content description contentSnippet enclosure =>
    title.isStringOrAbsent && link.isStringOrAbsent && thumbnail.isStringOrAbsent &&
    content.isStringOrAbsent && description.isStringOrAbsent &&
    contentSnippet.isStringOrAbsent &&
    (match enclosure with
      | .nullish => true
      | .record l => l.isStringOrAbsent)

/-- Lines 82-86: the image of an item that is not `null`. The content is searched
only when thumbnail and enclosure link are falsy. -/
def itemImage (b : Browser) (it : Item) : Except Str Val :=
  if it.thumbnail.truthy then .ok it.thumbnail
  else if it.enclosureLink.truthy then .ok it.enclosureLink
  else
    match extractImageFromContent b it.content with
    | .error message => .error message
    | .ok (some src) => .ok ((Val.str src).orElse (Val.str (FALLBACK_IMAGE b)))
    | .ok none => .ok (Val.str (FALLBACK_IMAGE b))

/-- The values one slide interpolates. -/
structure Card where
  active : Bool
  link : Str
  image : Str
  title : Str
  description : Str
deriving DecidableEq

/-- The callback of `items.map` (lines 81-103) up to the template: the values item
`it` at index `idx` puts into its slide, or the message of the error thrown. -/
def itemCard (b : Browser) (it : Item) (idx : Nat) : Except Str Card :=
  match it with
  | .null => .error (b.typeError (lit "it.thumbnail"))
  | .record _ _ _ _ _ _ _ =>
    match itemImage b it with
    | .error message => .error message
    | .ok image =>
      match stripHtml b (it.description.orElse (it.contentSnippet.orElse (Val.str []))) with
      | .error message => .error message
      | .ok description =>
        match textOf b (it.link.orElse (Val.str (lit "#"))) with
        | .error message => .error message
        | .ok link =>
          match textOf b image with
          | .error message => .error message
          | .ok imageText =>
            match textOf b (it.title.orElse (Val.str (lit "Untitled"))) with
            | .error message => .error message
            | .ok title =>
              .ok { active := decide (idx = 0), link := link, image := imageText,
                    title := title, description := description }

/-- The call `items.map(...)` from index `idx` on: the cards in order, or the
message of the first error thrown. -/
def cardsFrom (b : Browser) : Nat → List Item → Except Str (List Card)
  | _, [] => .ok []
  | idx, it :: rest =>
    match itemCard b it idx with
    | .error message => .error message
    | .ok card =>
      match cardsFrom b (idx + 1) rest with
      | .error message => .error message
      | .ok cards => .ok (card :: cards)

/-- The opening tag of a slide, up to the end of its `class` attribute. -/
def slideOpen (active : Bool) : Str :=
  lit "\n                    <div class=\"carousel-item " ++
    (if active then lit "active" else []) ++ lit "\">"

/-- The template of lines 92-102. -/
def slideHtml (b : Browser) (c : Card) : Str :=
  slideOpen c.active ++
  lit "\n                        <div class=\"card news-card shadow-sm\" role=\"button\" onclick=\"window.open('" ++
  escapeAttr c.link ++
  lit "', '_blank')\">\n                            <img src=\"" ++
  escapeAttr c.image ++
  lit "\" class=\"card-img-top\" alt=\"" ++
  escapeAttr c.title ++
  lit "\" onerror=\"this.src='" ++
  FALLBACK_IMAGE b ++
  lit "'\"/>\n                            <div class=\"card-body\">\n                                <h5 class=\"card-title\">" ++
  escapeHtml c.title ++
  lit "</h5>\n                                <p class=\"card-text\">" ++
  escapeHtml c.description ++
  lit "</p>\n                            </div>\n                        </div>\n                    </div>\n                "

/-- The template of lines 106-118 around the joined slides. -/
def controlsHtml (carouselId innerItemsHtml : Str) : Str :=
  lit "\n            <div id=\"" ++ carouselId ++
  lit "\" class=\"carousel slide\" data-bs-interval=\"false\" data-bs-wrap=\"true\">\n                <div class=\"carousel-inner\">\n                    " ++
  innerItemsHtml ++
  lit "\n                </div>\n                <button class=\"carousel-control-prev\" type=\"button\" data-bs-target=\"#" ++
  carouselId ++
  lit "\" data-bs-slide=\"prev\" aria-label=\"Previous\">\n                    <span class=\"carousel-control-prev-icon\" aria-hidden=\"true\"></span>\n                </button>\n                <button class=\"carousel-control-next\" type=\"button\" data-bs-target=\"#" ++
  carouselId ++
  lit "\" data-bs-slide=\"next\" aria-label=\"Next\">\n                    <span class=\"carousel-control-next-icon\" aria-hidden=\"true\"></span>\n                </button>\n            </div>\n        "

/-- The loading placeholder the shell puts into a carousel container. -/
def placeholderHtml (title : Str) : Str :=
  lit "\n                                <div class=\"text-center p-5\">\n                                    <div class=\"spinner-border text-primary\" role=\"status\"><span class=\"visually-hidden\">Loading...</span></div>\n                                    <p class=\"mt-2 text-muted\">Loading " ++
  escapeHtml title ++
  lit "...</p>\n                                </div>\n                            "

/-- The information panel of line 74. -/
def infoHtml (title : Str) : Str :=
  lit "<div class=\"alert alert-info\">No articles found for \"" ++ escapeHtml title ++
    lit "\".</div>"

/-- The error panel of line 133. -/
def errorHtml (title message : Str) : Str :=
  lit "<div class=\"alert alert-danger\">Could not load \"" ++ escapeHtml title ++
    lit "\". " ++ escapeHtml message ++ lit "</div>"

/-- What a carousel container `carousel-<id>` holds. -/
inductive Panel
  /-- The placeholder written by the shell: spinner and caption. -/
  | loading (title : Str)
  /-- The panel "No articles found". -/
  | info (title : Str)
  /-- The panel "Could not load". -/
  | error (title message : Str)
  /-- The carousel of topic `topicId`, one card per slide. -/
  | carousel (topicId : Str) (cards : List Card)
deriving DecidableEq

/-- The string assigned to `innerHTML` for each kind of content. -/
def Panel.innerHTML (b : Browser) : Panel → Str
  | .loading title => placeholderHtml title
  | .info title => infoHtml title
  | .error title message => errorHtml title message
  | .carousel topicId cards =>
    controlsHtml (lit "carouselInner-" ++ topicId) ((cards.map (slideHtml b)).flatten)

/-- The test `root.querySelector(".spinner-border")`: of the four templates only the
placeholder has an element of that class, and interpolated text is escaped. -/
def Panel.hasSpinner : Panel → Bool
  | .loading _ => true
  | _ => false

/-! ## Topics and the feed load -/

/-- The constant `RSS2JSON_BASE`. -/
def RSS2JSON_BASE : Str := lit "https://api.rss2json.com/v1/api.json?rss_url="

/-- The constant `MAX_ARTICLES`. -/
def MAX_ARTICLES : Nat := 20

/-- One entry of the page-provided `magazines` list. -/
inductive Magazine
  /-- The values `null` and `undefined`: reading a property of them throws. -/
  | nullish
  /-- A bare string; it has none of the five properties. -/
  | text (s : Str)
  /-- An object (also an array): its properties `title`, `topic`, `url`, `feed`,
  `rss`, `undefined` when absent. -/
  | record (title topic url feed rss : Val)
  /-- A number or a boolean: it has none of the five properties. -/
  | other (truthy : Bool)
deriving DecidableEq

/-- The property read `m.title`, for an entry that is not nullish. -/
def Magazine.title : Magazine → Val
  | .record title _ _ _ _ => title
  | _ => Val.undefined

/-- The property read `m.topic`, for an entry that is not nullish. -/
def Magazine.topic : Magazine → Val
  | .record _ topic _ _ _ => topic
  | _ => Val.undefined

/-- The property read `m.url`, for an entry that is not nullish. -/
def Magazine.url : Magazine → Val
  | .record _ _ url _ _ => url
  | _ => Val.undefined

/-- The property read `m.feed`, for an entry that is not nullish. -/
def Magazine.feed : Magazine → Val
  | .record _ _ _ feed _ => feed
  | _ => Val.undefined

/-- The property read `m.rss`, for an entry that is not nullish. -/
def Magazine.rss : Magazine → Val
  | .record _ _ _ _ rss => rss
  | _ => Val.undefined

/-- The entry has the shape the interface names: a bare string, or an object whose
five properties are strings or absent. -/
def Magazine.wellShaped : Magazine → Bool
  | .text _ => true
  | .record title topic url feed rss =>
    title.isStringOrAbsent && topic.isStringOrAbsent && url.isStringOrAbsent &&
    feed.isStringOrAbsent && rss.isStringOrAbsent
  | _ => false

/-- The expression `a || rest` in the chain of line 150, which ends in the entry
itself: of a truthy `a` only what `loadTopic` tests is kept, whether it is a
string and which. -/
def orElseValue (a : Val) (rest : Magazine) : Magazine :=
  if a.truthy then
    match a with
    | .str s => Magazine.text s
    | _ => Magazine.other true
  else rest

/-- The object the callback of line 146 returns: the title may be any truthy value. -/
structure TopicDraft where
  id : Str
  title : Val
  url : Magazine
deriving DecidableEq

/-- The callback of `window.magazines.slice(0, 3).map` (lines 146-152); `none` when
it throws, on an entry that is `null` or `undefined`. -/
def draftOf (idx : Nat) (m : Magazine) : Option TopicDraft :=
  match m with
  | .nullish => none
  | _ =>
    some
      { id := lit "topic" ++ numToStr idx
        title := m.title.orElse (m.topic.orElse (Val.str (lit "Topic " ++ numToStr (idx + 1))))
        url := orElseValue m.url (orElseValue m.feed (orElseValue m.rss m)) }

/-- The call `map` of line 146 from index `idx` on; `none` when the callback throws. -/
def draftsFrom : Nat → List Magazine → Option (List TopicDraft)
  | _, [] => some []
  | idx, m :: rest =>
    match draftOf idx m with
    | none => none
    | some d =>
      match draftsFrom (idx + 1) rest with
      | none => none
      | some ds => some (d :: ds)

/-- A topic record `{id, title, url}` whose title is a string. The `url` holds a
string or, when the entry it comes from has no truthy `url`, `feed` or `rss`, the
entry itself. -/
structure Topic where
  id : Str
  title : Str
  url : Magazine
deriving DecidableEq

/-- The topic as the shell of lines 156-186 renders it; `none` when `escapeHtml`
throws on a title that is not a string. -/
def shellTopic (d : TopicDraft) : Option Topic :=
  match d.title with
  | .str s => some { id := d.id, title := s, url := d.url }
  | .other true _ => none
  | _ => some { id := d.id, title := [], url := d.url }

/-- The topics of the shell, in order; `none` when rendering one of them throws. -/
def shellTopics : List TopicDraft → Option (List Topic)
  | [] => some []
  | d :: rest =>
    match shellTopic d with
    | none => none
    | some t =>
      match shellTopics rest with
      | none => none
      | some ts => some (t :: ts)

/-- The list `topics` of line 146 as the shell shows it; `none` when the handler
throws before the shell is written, at line 149 or at line 169. -/
def buildTopics (magazines : List Magazine) : Option (List Topic) :=
  match draftsFrom 0 (magazines.take 3) with
  | none => none
  | some ds => shellTopics ds

/-- The call `s.replace(/\/$/, "")`: one slash at the end of the input is removed. -/
def stripTrailingSlash (s : Str) : Str :=
  if s.getLast? = some (u '/') then s.dropLast else s

/-- Lines 57-61 of `loadTopic`: the normalization of the feed URL. -/
def normalizeFeedUrl (rssUrl : Str) : Str :=
  if !endsWith rssUrl (lit ".rss") && !includes rssUrl (lit ".rss?") then
    if includes rssUrl (lit "flipboard.com") then
      stripTrailingSlash rssUrl ++ lit ".rss"
    else rssUrl
  else rssUrl

/-- Lines 54-63 of `loadTopic`: the URL requested, or the message of the error
thrown before any request is made. -/
def requestUrl (b : Browser) (t : Topic) : Except Str Str :=
  match t.url with
  | .text rssUrl =>
    if rssUrl = [] then .error (lit "No feed URL provided.")
    else
      match b.encodeURIComponent (normalizeFeedUrl rssUrl) with
      | some encoded => .ok (RSS2JSON_BASE ++ encoded)
      | none => .error b.uriError
  | .record _ _ _ _ _ => .error (b.typeError (lit "rssUrl.endsWith"))
  | .other true => .error (b.typeError (lit "rssUrl.endsWith"))
  | .other false => .error (lit "No feed URL provided.")
  | .nullish => .error (lit "No feed URL provided.")

/-- The body of a response, read by `res.json()` and `data.items`. -/
inductive Body
  /-- Reading the body throws (it is not JSON, or it is JSON `null`); `message` is
  the message of the error. -/
  | failed (message : Str)
  /-- The body parses; `items` is `none` when `data.items` is absent or not a list. -/
  | data (items : Option (List Item))

/-- How the request `fetch(fullUrl)` ends. -/
inductive FetchOutcome
  /-- The request fails at network level; `message` is the message of the error. -/
  | rejected (message : Str)
  /-- A response arrives with HTTP status `status`. -/
  | response (status : Nat) (body : Body)

/-- The flag `res.ok`: the status is in the range 200-299. -/
def httpOk (status : Nat) : Bool := 200 ≤ status && status ≤ 299

/-- Lines 69-120 of `loadTopic`: what is rendered for the parsed `items`. An error
thrown while the items are mapped reaches the `catch` of line 131. -/
def renderItems (b : Browser) (t : Topic) (items : Option (List Item)) : Panel :=
  let items :=
    match items with
    | some l => l.take MAX_ARTICLES
    | none => []
  if items.length = 0 then Panel.info t.title
  else
    match cardsFrom b 0 items with
    | .error message => Panel.error t.title message
    | .ok cards => Panel.carousel t.id cards

/-- Lines 65-134 of `loadTopic`: what the carousel container holds once the request
has ended with `out`. The `tabindex` and the key handler that lines 122-129 add to
the cards of a rendered carousel are not part of the model. -/
def settle (b : Browser) (t : Topic) : FetchOutcome → Panel
  | .rejected message => Panel.error t.title message
  | .response status body =>
    if !httpOk status then
      Panel.error t.title (lit "Failed to fetch feed: " ++ numToStr status)
    else
      match body with
      | .failed message => Panel.error t.title message
      | .data items => renderItems b t items

/-- The carousel containers of the document: element id to contents, `none` when
the document has no element of that id. -/
abbrev Dom := Str → Option Panel

/-- The id of the carousel container of a topic. -/
def carouselId (t : Topic) : Str := lit "carousel-" ++ t.id

/-- The id of the collapse element of a topic. -/
def collapseId (t : Topic) : Str := lit "collapse-" ++ t.id

/-- The id of the header element of a topic. -/
def headerId (t : Topic) : Str := lit "heading-" ++ t.id

/-- The part of `loadTopic(t)` that runs before the request is awaited: the
document after it, and the URL requested when a request is made. -/
def loadTopicStart (b : Browser) (dom : Dom) (t : Topic) : Dom × Option Str :=
  match dom (carouselId t) with
  | none => (dom, none)
  | some _ =>
    match requestUrl b t with
    | .error message =>
      (Function.update dom (carouselId t) (some (Panel.error t.title message)), none)
    | .ok fullUrl => (dom, some fullUrl)

/-- The part of `loadTopic(t)` that runs once the request has ended with `out`. -/
def loadTopicResume (b : Browser) (dom : Dom) (t : Topic) (out : FetchOutcome) : Dom :=
  Function.update dom (carouselId t) (some (settle b t out))

/-- The function `loadTopic(t)` run to its end, the network answering `fetch url`
to a request for `url`. -/
def loadTopic (b : Browser) (fetch : Str → FetchOutcome) (dom : Dom) (t : Topic) : Dom :=
  match loadTopicStart b dom t with
  | (dom1, none) => dom1
  | (dom1, some fullUrl) => loadTopicResume b dom1 t (fetch fullUrl)

/-! ## The page: shell, deferred loads, events -/

/-- The constant `ACCORDION_ID`. -/
def ACCORDION_ID : Str := lit "newsAccordion"

/-- How a template writes a boolean. -/
def boolToStr (x : Bool) : Str := if x then lit "true" else lit "false"

/-- The template of lines 163-184: the accordion item of topic `t` at index `i`. -/
def accordionItemHtml (t : Topic) (i : Nat) : Str :=
  let expanded := decide (i = 0)
  lit "\n                <div class=\"accordion-item mb-3\">\n                    <h2 class=\"accordion-header\" id=\"" ++
  headerId t ++
  lit "\">\n                        <button class=\"accordion-button " ++
  (if expanded then [] else lit "collapsed") ++
  lit "\" type=\"button\"\n                            data-bs-toggle=\"collapse\" data-bs-target=\"#" ++
  collapseId t ++
  lit "\"\n                            aria-expanded=\"" ++
  boolToStr expanded ++
  lit "\" aria-controls=\"" ++
  collapseId t ++
  lit "\">\n                            " ++
  escapeHtml t.title ++
  lit "\n                        </button>\n                    </h2>\n                    <div id=\"" ++
  collapseId t ++
  lit "\" class=\"accordion-collapse collapse " ++
  (if expanded then lit "show" else []) ++
  lit "\" \n                        aria-labelledby=\"" ++
  headerId t ++
  lit "\" data-bs-parent=\"#" ++
  ACCORDION_ID ++
  lit "\">\n                        <div class=\"accordion-body p-0\">\n                            <div id=\"" ++
  carouselId t ++
  lit "\">" ++
  placeholderHtml t.title ++
  lit "</div>\n                        </div>\n                    </div>\n                </div>\n            "

/-- The warning of lines 140-142. -/
def warningHtml : Str :=
  lit "\n            <div class=\"alert alert-warning\">Error: <code>magazines</code> array is not available or has fewer than 3 items.</div>\n        "

/-- What the accordion container `#newsAccordion` holds after the handler. -/
inductive Accordion
  /-- What the page served: the handler has not written to the container. -/
  | untouched
  /-- The configuration warning alone. -/
  | warning
  /-- One accordion item per topic, each with its loading placeholder. -/
  | shell (topics : List Topic)
deriving DecidableEq

/-- The string the handler assigned to `innerHTML` of the accordion container,
`none` when it assigned nothing. -/
def Accordion.innerHTML : Accordion → Option Str
  | .untouched => none
  | .warning => some warningHtml
  | .shell topics => some ((topics.mapIdx (fun i t => accordionItemHtml t i)).flatten)

/-- The state of the page the script acts on. -/
structure Page where
  /-- Contents of the accordion container. -/
  accordion : Accordion
  /-- The carousel containers, by element id. -/
  carousels : Dom
  /-- Ids of the collapse elements in the document. -/
  collapses : List Str
  /-- Topics whose `once` listener for `shown.bs.collapse` is still attached to
  their collapse element. -/
  listeners : List Topic
  /-- The calls of `loadTopic` made so far, oldest first. -/
  calls : List Topic
  /-- The URLs passed to `fetch` so far, oldest first. -/
  requests : List Str
  /-- Topics whose call of `loadTopic` awaits its request. -/
  pending : List Topic

/-- A call `loadTopic(t)` up to the point where it awaits its request. -/
def callLoadTopic (b : Browser) (p : Page) (t : Topic) : Page :=
  match loadTopicStart b p.carousels t with
  | (dom, none) => { p with carousels := dom, calls := p.calls ++ [t] }
  | (dom, some fullUrl) =>
    { p with carousels := dom, calls := p.calls ++ [t], requests := p.requests ++ [fullUrl],
             pending := p.pending ++ [t] }

/-- The page after the warning of lines 139-144: nothing else is rendered or started. -/
def warningPage : Page where
  accordion := Accordion.warning
  carousels := fun _ => none
  collapses := []
  listeners := []
  calls := []
  requests := []
  pending := []

/-- The page after a handler that threw at line 149 or at line 169: the error is
not caught, nothing is rendered and nothing is started. -/
def untouchedPage : Page where
  accordion := Accordion.untouched
  carousels := fun _ => none
  collapses := []
  listeners := []
  calls := []
  requests := []
  pending := []

/-- The carousel containers of the shell: `getElementById` finds the first element
of the id, holding its placeholder. -/
def shellDom (topics : List Topic) : Dom :=
  fun k => (topics.find? (fun t => carouselId t == k)).map (fun t => Panel.loading t.title)

/-- The page once the shell of lines 154-186 is rendered. -/
def shellPage (topics : List Topic) : Page where
  accordion := Accordion.shell topics
  carousels := shellDom topics
  collapses := topics.map collapseId
  listeners := []
  calls := []
  requests := []
  pending := []

/-- The loop `topics.forEach` of lines 188-202, from index `idx` on. -/
def wire (b : Browser) : Page → Nat → List Topic → Page
  | p, _, [] => p
  | p, idx, t :: ts =>
    let p1 :=
      if p.collapses.contains (collapseId t) then
        if idx = 0 then callLoadTopic b p t
        else { p with listeners := p.listeners ++ [t] }
      else p
    wire b p1 (idx + 1) ts

/-- The `DOMContentLoaded` handler; `magazines` is `none` when `window.magazines`
is absent or not a list. -/
def init (b : Browser) (magazines : Option (List Magazine)) : Page :=
  match magazines with
  | none => warningPage
  | some ms =>
    if ms.length < 3 then warningPage
    else
      match buildTopics ms with
      | none => untouchedPage
      | some topics => wire b (shellPage topics) 0 topics

/-- What happens on the page after initialization. -/
inductive Event
  /-- The event `shown.bs.collapse` is dispatched on the element of id `target`: its
  expand transition is complete. -/
  | shown (target : Str)
  /-- The request of the `k`-th pending load ends with `out`. -/
  | settled (k : Nat) (out : FetchOutcome)

/-- The listener of lines 195-199 for topic `t`. -/
def onShown (b : Browser) (p : Page) (t : Topic) : Page :=
  match p.carousels (carouselId t) with
  | some root => if root.hasSpinner then callLoadTopic b p t else p
  | none => p

/-- One event: a `shown.bs.collapse` detaches the `once` listeners of its target and
runs them; a settled request resumes its `loadTopic`. -/
def step (b : Browser) (p : Page) : Event → Page
  | .shown target =>
    (p.listeners.filter (fun t => collapseId t == target)).foldl (onShown b)
      { p with listeners := p.listeners.filter (fun t => !(collapseId t == target)) }
  | .settled k out =>
    match p.pending.get? k with
    | none => p
    | some t =>
      { p with pending := p.pending.eraseIdx k,
               carousels := loadTopicResume b p.carousels t out }

/-- A sequence of events, oldest first. -/
def run (b : Browser) (p : Page) (es : List Event) : Page := es.foldl (step b) p

/-- The guard of line 197: the carousel container of `t` exists and holds the
loading placeholder. -/
def showsPlaceholder (p : Page) (t : Topic) : Bool :=
  match p.carousels (carouselId t) with
  | some root => root.hasSpinner
  | none => false

/-! ## Sample inputs -/

/-- A browser whose `encodeURIComponent` and text extraction leave text as it is,
and whose `TypeError` message is the expression followed by ` failed`. -/
def sampleBrowser : Browser where
  encodeURIComponent := fun s => some s
  uriError := lit "URI malformed"
  textContent := fun s => s
  typeError := fun e => e ++ lit " failed"

/-- A topic with a plain feed URL. -/
def sampleTopic : Topic where
  id := lit "topic0"
  title := lit "News"
  url := Magazine.text (lit "https://example.org/feed.rss")

/-- The request `loadTopic` makes for `sampleTopic`. -/
def sampleRequest : Str := RSS2JSON_BASE ++ lit "https://example.org/feed.rss"

/-- A document with the placeholder of `topic0` and the loaded panel of `topic1`. -/
def sampleDom : Dom := fun k =>
  if k = lit "carousel-topic0" then some (Panel.loading (lit "News"))
  else if k = lit "carousel-topic1" then some (Panel.info (lit "Sport"))
  else none

/-- A feed item with a title and a thumbnail only. -/
def sampleItem (title : Str) : Item :=
  Item.record (Val.str title) Val.undefined (Val.str (lit "https://example.org/a.png"))
    Val.undefined Val.undefined Val.undefined Enclosure.nullish

/-- A feed item with nothing but inline markup whose `<img>` has a `src` and,
after it, a `data-src`. -/
def sampleInlineItem : Item :=
  Item.record Val.undefined Val.undefined Val.undefined
    (Val.str (lit "<img src=\"a.png\" data-src=\"b.png\">")) Val.undefined Val.undefined
    Enclosure.nullish

/-- A `magazines` list of three entries: two bare URLs and an object. -/
def sampleMagazines : List Magazine :=
  [Magazine.text (lit "https://flipboard.com/@a/x"),
   Magazine.record (Val.str (lit "Tech")) Val.undefined Val.undefined
     (Val.str (lit "https://example.org/t.rss")) Val.undefined,
   Magazine.text (lit "https://example.org/c.rss")]

/-- The second panel is expanded twice, a request fails in between, then the third
panel is expanded. -/
def sampleEvents : List Event :=
  [Event.shown (lit "collapse-topic1"),
   Event.settled 0 (FetchOutcome.rejected (lit "offline")),
   Event.shown (lit "collapse-topic1"),
   Event.shown (lit "collapse-topic2")]

/-- A `magazines` list whose first entry is `null`. -/
def sampleNullMagazines : List Magazine :=
  [Magazine.nullish, Magazine.text (lit "b"), Magazine.text (lit "c")]

/-! ## The topic as the specification words it -/

/-- The topic the specification describes for the entry `m` at position `idx`: the
id `topic<idx>`; the title of the entry, else its `topic`, else `Topic N` with N the
position plus one; the `url` of the entry, else `feed`, else `rss`, else the entry
itself. A property counts when it is a non-empty string. -/
def topicAsClaimed (idx : Nat) (m : Magazine) : Topic where
  id := lit "topic" ++ numToStr idx
  title := (firstNonEmpty [m.title.nonEmptyText, m.topic.nonEmptyText]).getD
    (lit "Topic " ++ numToStr (idx + 1))
  url :=
    match firstNonEmpty [m.url.nonEmptyText, m.feed.nonEmptyText, m.rss.nonEmptyText] with
    | some s => Magazine.text s
    | none => m

/-! ## Theorems -/

/-- On a one-unit pattern `replaceAllFrom` rewrites unit by unit. -/
theorem replaceAllFrom_single (p : Nat) (rep s : Str) :
    replaceAllFrom [p] rep 0 s = s.flatMap (fun c => if c = p then rep else [c]) := by
  induction s with
  | nil => rfl
  | cons c cs ih =>
    by_cases h : c = p
    · subst h
      simp [replaceAllFrom, List.isPrefixOf, ih]
    · have h2 : ¬ p = c := fun e => h e.symm
      simp [replaceAllFrom, List.isPrefixOf, ih, h, h2]

/-- On a one-unit pattern `replaceAll` rewrites unit by unit. -/
theorem replaceAll_single (p : Nat) (rep s : Str) :
    replaceAll s [p] rep = s.flatMap (fun c => if c = p then rep else [c]) := by
  simp [replaceAll, replaceAllFrom_single]

/-- The three replacements of `escapeHtml` amount to one pass over the code units. -/
theorem escapeHtml_eq_flatMap (s : Str) : escapeHtml s = s.flatMap escapeHtmlUnit := by
  have pass : replaceAll
      (replaceAll (replaceAll s (lit "&") (lit "&amp;")) (lit "<") (lit "&lt;"))
      (lit ">") (lit "&gt;") = s.flatMap escapeHtmlUnit := by
    have p1 : lit "&" = [u '&'] := by decide
    have p2 : lit "<" = [u '<'] := by decide
    have p3 : lit ">" = [u '>'] := by decide
    rw [p1, p2, p3]
    simp only [replaceAll_single]
    induction s with
    | nil => rfl
    | cons c cs ih =>
      simp only [List.flatMap_cons, List.flatMap_append, ih]
      congr 1
      unfold escapeHtmlUnit
      by_cases h1 : c = u '&'
      · subst h1
        rw [if_pos rfl, if_pos rfl]
        decide
      · by_cases h2 : c = u '<'
        · subst h2
          rw [if_neg h1, if_neg h1]
          decide
        · by_cases h3 : c = u '>'
          · subst h3
            rw [if_neg h1, if_neg h1, if_neg h2]
            decide
          · simp [h1, h2, h3]
  unfold escapeHtml
  split
  · next h => subst h; rfl
  · exact pass

/-- The two replacements of `escapeAttr` amount to one pass over the code units. -/
theorem escapeAttr_eq_flatMap (s : Str) : escapeAttr s = s.flatMap escapeAttrUnit := by
  have pass : replaceAll (replaceAll s (lit "'") (lit "\\'")) (lit "\"") (lit "&quot;") =
      s.flatMap escapeAttrUnit := by
    have p1 : lit "'" = [u '\''] := by decide
    have p2 : lit "\"" = [u '"'] := by decide
    rw [p1, p2]
    simp only [replaceAll_single]
    induction s with
    | nil => rfl
    | cons c cs ih =>
      simp only [List.flatMap_cons, List.flatMap_append, ih]
      congr 1
      unfold escapeAttrUnit
      by_cases h1 : c = u '\''
      · subst h1
        rw [if_pos rfl, if_pos rfl]
        decide
      · by_cases h2 : c = u '"'
        · subst h2
          rw [if_neg h1, if_neg h1]
          decide
        · simp [h1, h2]
  unfold escapeAttr
  split
  · next h => subst h; rfl
  · exact pass

/-- A unit that is not an ampersand keeps the entity property of what follows it. -/
theorem ampersandsAreEntities_cons (c : Nat) (l : Str) (hl : AmpersandsAreEntities l)
    (hc : c = u '&' → EntityTail l) : AmpersandsAreEntities (c :: l) := by
  intro pre post h
  cases pre with
  | nil =>
    simp only [List.nil_append, List.cons.injEq] at h
    obtain ⟨h1, h2⟩ := h
    subst h2
    exact hc h1
  | cons a pre =>
    simp only [List.cons_append, List.cons.injEq] at h
    exact hl pre post h.2

/-- The output of one pass of `escapeHtmlUnit` has ampersands only at entities. -/
theorem ampersandsAreEntities_flatMap (s : Str) :
    AmpersandsAreEntities (s.flatMap escapeHtmlUnit) := by
  induction s with
  | nil =>
    intro pre post h
    simp at h
  | cons c cs ih =>
    have key : ∀ (x : Nat) (l : Str), x ≠ u '&' → AmpersandsAreEntities l →
        AmpersandsAreEntities (x :: l) :=
      fun x l hx hl => ampersandsAreEntities_cons x l hl (fun e => absurd e hx)
    have e1 : lit "&amp;" = u '&' :: lit "amp;" := by decide
    have e2 : lit "&lt;" = u '&' :: lit "lt;" := by decide
    have e3 : lit "&gt;" = u '&' :: lit "gt;" := by decide
    have t1 : lit "amp;" = [u 'a', u 'm', u 'p', u ';'] := by decide
    have t2 : lit "lt;" = [u 'l', u 't', u ';'] := by decide
    have t3 : lit "gt;" = [u 'g', u 't', u ';'] := by decide
    simp only [List.flatMap_cons]
    unfold escapeHtmlUnit
    by_cases h1 : c = u '&'
    · rw [if_pos h1, e1, List.cons_append]
      refine ampersandsAreEntities_cons _ _ ?_ (fun _ => Or.inl ⟨_, rfl⟩)
      rw [t1]
      exact key _ _ (by decide) (key _ _ (by decide) (key _ _ (by decide)
        (key _ _ (by decide) ih)))
    · by_cases h2 : c = u '<'
      · rw [if_neg h1, if_pos h2, e2, List.cons_append]
        refine ampersandsAreEntities_cons _ _ ?_ (fun _ => Or.inr (Or.inl ⟨_, rfl⟩))
        rw [t2]
        exact key _ _ (by decide) (key _ _ (by decide) (key _ _ (by decide) ih))
      · by_cases h3 : c = u '>'
        · rw [if_neg h1, if_neg h2, if_pos h3, e3, List.cons_append]
          refine ampersandsAreEntities_cons _ _ ?_ (fun _ => Or.inr (Or.inr ⟨_, rfl⟩))
          rw [t3]
          exact key _ _ (by decide) (key _ _ (by decide) (key _ _ (by decide) ih))
        · rw [if_neg h1, if_neg h2, if_neg h3]
          exact key _ _ h1 ih

/-- No unit written by `escapeHtmlUnit` is an angle bracket. -/
theorem escapeHtmlUnit_no_angle (c x : Nat) (hx : x ∈ escapeHtmlUnit c) :
    x ≠ u '<' ∧ x ≠ u '>' := by
  have a1 : ∀ y ∈ lit "&amp;", y ≠ u '<' ∧ y ≠ u '>' := by decide
  have a2 : ∀ y ∈ lit "&lt;", y ≠ u '<' ∧ y ≠ u '>' := by decide
  have a3 : ∀ y ∈ lit "&gt;", y ≠ u '<' ∧ y ≠ u '>' := by decide
  unfold escapeHtmlUnit at hx
  split at hx
  · exact a1 x hx
  · split at hx
    · exact a2 x hx
    · split at hx
      · exact a3 x hx
      · simp only [List.mem_singleton] at hx
        subst hx
        constructor <;> assumption

/-- No unit written by `escapeAttrUnit` is a double quote. -/
theorem escapeAttrUnit_no_dquote (c x : Nat) (hx : x ∈ escapeAttrUnit c) : x ≠ u '"' := by
  have a1 : ∀ y ∈ lit "\\'", y ≠ u '"' := by decide
  have a2 : ∀ y ∈ lit "&quot;", y ≠ u '"' := by decide
  unfold escapeAttrUnit at hx
  split at hx
  · exact a1 x hx
  · split at hx
    · exact a2 x hx
    · simp only [List.mem_singleton] at hx
      subst hx
      assumption

/-- Text without `&`, `<`, `>` passes through `escapeHtml` unchanged. -/
theorem escapeHtml_of_plain (s : Str) (h : ∀ c ∈ s, c ≠ u '&' ∧ c ≠ u '<' ∧ c ≠ u '>') :
    escapeHtml s = s := by
  rw [escapeHtml_eq_flatMap]
  induction s with
  | nil => rfl
  | cons c cs ih =>
    have hc := h c (List.mem_cons_self c cs)
    have hcs : ∀ x ∈ cs, x ≠ u '&' ∧ x ≠ u '<' ∧ x ≠ u '>' :=
      fun x hx => h x (List.mem_cons_of_mem c hx)
    simp only [List.flatMap_cons, ih hcs, escapeHtmlUnit, if_neg hc.1, if_neg hc.2.1,
      if_neg hc.2.2, List.singleton_append]

/-- C1: the output of `escapeHtml` holds no `<` and no `>`, each of its ampersands
starts one of `&amp;`, `&lt;`, `&gt;`; `<script>` comes out as `&lt;script&gt;`, and
the card title, the accordion button and the information and error panels put the
title into the markup through `escapeHtml`. -/
theorem escapeHtml_output_safe (s : Str) :
    u '<' ∉ escapeHtml s ∧ u '>' ∉ escapeHtml s ∧ AmpersandsAreEntities (escapeHtml s) ∧
    escapeHtml (lit "<script>") = (lit "&lt;script&gt;") ∧
    (∀ (b : Browser) (c : Card), ∃ pre post, slideHtml b c =
      pre ++ (lit "<h5 class=\"card-title\">") ++ escapeHtml c.title ++ (lit "</h5>") ++ post) ∧
    (∀ (t : Topic) (i : Nat), ∃ pre post, accordionItemHtml t i =
      pre ++ (lit "aria-controls=\"") ++ collapseId t ++ (lit "\">\n                            ") ++
        escapeHtml t.title ++ (lit "\n                        </button>") ++ post) ∧
    (∀ title : Str, infoHtml title =
      (lit "<div class=\"alert alert-info\">No articles found for \"") ++ escapeHtml title ++
        (lit "\".</div>")) ∧
    (∀ title message : Str, errorHtml title message =
      (lit "<div class=\"alert alert-danger\">Could not load \"") ++ escapeHtml title ++
        (lit "\". ") ++ escapeHtml message ++ (lit "</div>")) := by
  refine ⟨?_, ?_, ?_, by decide, ?_, ?_, fun _ => rfl, fun _ _ => rfl⟩
  · rw [escapeHtml_eq_flatMap]
    intro h
    obtain ⟨c, -, hc⟩ := List.mem_flatMap.mp h
    exact (escapeHtmlUnit_no_angle c _ hc).1 rfl
  · rw [escapeHtml_eq_flatMap]
    intro h
    obtain ⟨c, -, hc⟩ := List.mem_flatMap.mp h
    exact (escapeHtmlUnit_no_angle c _ hc).2 rfl
  · rw [escapeHtml_eq_flatMap]
    exact ampersandsAreEntities_flatMap s
  · intro b c
    refine ⟨slideOpen c.active ++
      (lit "\n                        <div class=\"card news-card shadow-sm\" role=\"button\" onclick=\"window.open('") ++
      escapeAttr c.link ++
      (lit "', '_blank')\">\n                            <img src=\"") ++
      escapeAttr c.image ++
      (lit "\" class=\"card-img-top\" alt=\"") ++
      escapeAttr c.title ++
      (lit "\" onerror=\"this.src='") ++
      FALLBACK_IMAGE b ++
      (lit "'\"/>\n                            <div class=\"card-body\">\n                                "),
      (lit "\n                                <p class=\"card-text\">") ++
      escapeHtml c.description ++
      (lit "</p>\n                            </div>\n                        </div>\n                    </div>\n                "), ?_⟩
    have e1 : (lit "'\"/>\n                            <div class=\"card-body\">\n                                <h5 class=\"card-title\">") =
        (lit "'\"/>\n                            <div class=\"card-body\">\n                                ") ++
          (lit "<h5 class=\"card-title\">") := by decide
    have e2 : (lit "</h5>\n                                <p class=\"card-text\">") =
        (lit "</h5>") ++ (lit "\n                                <p class=\"card-text\">") := by
      decide
    unfold slideHtml
    rw [e1, e2]
    simp only [List.append_assoc]
  · intro t i
    refine ⟨(lit "\n                <div class=\"accordion-item mb-3\">\n                    <h2 class=\"accordion-header\" id=\"") ++
      headerId t ++
      (lit "\">\n                        <button class=\"accordion-button ") ++
      (if decide (i = 0) then [] else (lit "collapsed")) ++
      (lit "\" type=\"button\"\n                            data-bs-toggle=\"collapse\" data-bs-target=\"#") ++
      collapseId t ++
      (lit "\"\n                            aria-expanded=\"") ++
      boolToStr (decide (i = 0)) ++ (lit "\" "),
      (lit "\n                    </h2>\n                    <div id=\"") ++
      collapseId t ++
      (lit "\" class=\"accordion-collapse collapse ") ++
      (if decide (i = 0) then (lit "show") else []) ++
      (lit "\" \n                        aria-labelledby=\"") ++
      headerId t ++
      (lit "\" data-bs-parent=\"#") ++
      ACCORDION_ID ++
      (lit "\">\n                        <div class=\"accordion-body p-0\">\n                            <div id=\"") ++
      carouselId t ++
      (lit "\">") ++
      placeholderHtml t.title ++
      (lit "</div>\n                        </div>\n                    </div>\n                </div>\n            "), ?_⟩
    have e1 : (lit "\" aria-controls=\"") = (lit "\" ") ++ (lit "aria-controls=\"") := by
      decide
    have e2 : (lit "\n                        </button>\n                    </h2>\n                    <div id=\"") =
        (lit "\n                        </button>") ++
          (lit "\n                    </h2>\n                    <div id=\"") := by decide
    unfold accordionItemHtml
    simp only [e1, e2, List.append_assoc]

/-- C2: on the link `\'` (a backslash, then a single quote) `escapeAttr` returns
`\\'`: the quote has two backslashes before it, so it is not escaped. -/
theorem escapeAttr_backslash_quote_unescaped :
    escapeAttr (lit "\\'") = lit "\\\\'" ∧
    trailingBackslashes (lit "\\\\") = 2 ∧
    ¬ QuotesEscaped (escapeAttr (lit "\\'")) := by
  refine ⟨by decide, by decide, ?_⟩
  intro h
  have h2 := h (lit "\\\\") [] (by decide)
  revert h2
  decide

/-- C3: the output of `escapeAttr` holds no double quote; each double quote of the
input is written as `&quot;`, and the slide puts link, image and title into its
`onclick`, `src` and `alt` attributes through `escapeAttr`. -/
theorem escapeAttr_no_double_quote (s : Str) :
    u '"' ∉ escapeAttr s ∧
    (∀ pre post : Str, escapeAttr (pre ++ u '"' :: post) =
      escapeAttr pre ++ (lit "&quot;") ++ escapeAttr post) ∧
    (∀ (b : Browser) (c : Card), ∃ rest, slideHtml b c =
      slideOpen c.active ++
      (lit "\n                        <div class=\"card news-card shadow-sm\" role=\"button\" onclick=\"window.open('") ++
      escapeAttr c.link ++
      (lit "', '_blank')\">\n                            <img src=\"") ++
      escapeAttr c.image ++
      (lit "\" class=\"card-img-top\" alt=\"") ++
      escapeAttr c.title ++
      (lit "\" onerror=\"this.src='") ++ rest) := by
  refine ⟨?_, ?_, ?_⟩
  · rw [escapeAttr_eq_flatMap]
    intro h
    obtain ⟨c, -, hc⟩ := List.mem_flatMap.mp h
    exact escapeAttrUnit_no_dquote c _ hc rfl
  · intro pre post
    have hq : escapeAttrUnit (u '"') = (lit "&quot;") := by decide
    simp only [escapeAttr_eq_flatMap, List.flatMap_append, List.flatMap_cons, hq,
      List.append_assoc]
  · intro b c
    refine ⟨FALLBACK_IMAGE b ++
      (lit "'\"/>\n                            <div class=\"card-body\">\n                                <h5 class=\"card-title\">") ++
      escapeHtml c.title ++
      (lit "</h5>\n                                <p class=\"card-text\">") ++
      escapeHtml c.description ++
      (lit "</p>\n                            </div>\n                        </div>\n                    </div>\n                "), ?_⟩
    unfold slideHtml
    simp only [List.append_assoc]

/-- A URL that `normalizeFeedUrl` rewrites ends in `.rss`. -/
theorem endsWith_append_rss (x : Str) : endsWith (x ++ lit ".rss") (lit ".rss") = true := by
  unfold endsWith
  rw [List.isSuffixOf_iff_suffix]
  exact List.suffix_append x _

/-- C10: the normalization of the feed URL in `loadTopic` is the function the claim
words, it is idempotent, leaves a URL without `flipboard.com` alone, gives a URL
ending in `.rss` whenever it changes its input, and its result is what `loadTopic`
encodes into the request for a non-empty URL. -/
theorem normalizeFeedUrl_idempotent (url : Str) :
    normalizeFeedUrl url =
      (if endsWith url (lit ".rss") = false ∧ includes url (lit ".rss?") = false ∧
          includes url (lit "flipboard.com") = true
        then stripTrailingSlash url ++ lit ".rss" else url) ∧
    normalizeFeedUrl (normalizeFeedUrl url) = normalizeFeedUrl url ∧
    (includes url (lit "flipboard.com") = false → normalizeFeedUrl url = url) ∧
    (normalizeFeedUrl url ≠ url → endsWith (normalizeFeedUrl url) (lit ".rss") = true) ∧
    (∀ (b : Browser) (t : Topic), t.url = Magazine.text url → url ≠ [] →
      requestUrl b t =
        (match b.encodeURIComponent (normalizeFeedUrl url) with
          | some encoded => Except.ok (RSS2JSON_BASE ++ encoded)
          | none => Except.error b.uriError)) := by
  have key : normalizeFeedUrl url = url ∨
      normalizeFeedUrl url = stripTrailingSlash url ++ lit ".rss" := by
    unfold normalizeFeedUrl
    split
    · split
      · exact Or.inr rfl
      · exact Or.inl rfl
    · exact Or.inl rfl
  have fix : ∀ x : Str, normalizeFeedUrl (x ++ lit ".rss") = x ++ lit ".rss" := by
    intro x
    unfold normalizeFeedUrl
    rw [endsWith_append_rss]
    rfl
  refine ⟨?_, ?_, ?_, ?_, ?_⟩
  · unfold normalizeFeedUrl
    cases endsWith url (lit ".rss") <;> cases includes url (lit ".rss?") <;>
      cases includes url (lit "flipboard.com") <;> simp
  · rcases key with h | h
    · rw [h, h]
    · rw [h, fix]
  · intro h
    unfold normalizeFeedUrl
    rw [h]
    split <;> rfl
  · intro h
    rcases key with h1 | h1
    · exact absurd h1 h
    · rw [h1]
      exact endsWith_append_rss _
  · intro b t ht hu
    unfold requestUrl
    rw [ht]
    simp only [hu, if_false]

/-- The first code unit of a trimmed text is not white space. -/
theorem trim_head_not_space (s : Str) (a : Nat) (l : Str) (h : trim s = a :: l) :
    isJsSpace a = false := by
  have hpre : trim s <+: s.dropWhile isJsSpace := List.rdropWhile_prefix _ _
  rw [h] at hpre
  obtain ⟨t, ht⟩ := hpre
  have hd : s.dropWhile isJsSpace ≠ [] := by
    rw [← ht]
    simp
  have h1 := List.head_dropWhile_not isJsSpace s hd
  have h2 : (s.dropWhile isJsSpace).head hd = a := by
    simp only [← ht, List.cons_append, List.head_cons]
  rw [h2] at h1
  exact h1

/-- A trimmed text followed by the ellipsis is not changed by another `trim`. -/
theorem trim_append_dots (x : Str) : trim (trim x ++ lit "...") = trim x ++ lit "..." := by
  have hdots : lit "..." = [u '.', u '.'] ++ [u '.'] := by decide
  have hdot : isJsSpace (u '.') = false := by decide
  have hfront : (trim x ++ lit "...").dropWhile isJsSpace = trim x ++ lit "..." := by
    cases h : trim x with
    | nil => decide
    | cons a l =>
      have ha := trim_head_not_space x a l h
      simp only [List.cons_append, List.dropWhile_cons, ha, Bool.false_eq_true, if_false]
  have hback : List.rdropWhile isJsSpace (trim x ++ lit "...") = trim x ++ lit "..." := by
    rw [hdots, ← List.append_assoc, List.rdropWhile_concat]
    simp only [hdot, Bool.false_eq_true, if_false]
  show List.rdropWhile isJsSpace ((trim x ++ lit "...").dropWhile isJsSpace) = _
  rw [hfront, hback]

set_option maxRecDepth 100000 in
/-- C4, as the code has it: the length of the text before trimming decides, and it
is the length in UTF-16 code units. Text of at most 150 code units is trimmed; of
longer text the first 150 code units are kept, trimmed, and followed by the
ellipsis. So 100 characters outside the Basic Multilingual Plane, 200 code units,
are cut to the first 75 of them. -/
theorem summarize_eq (p : Str) :
    summarize p =
      (if p.length ≤ 150 then trim p else trim (p.take 150) ++ lit "...") ∧
    (∀ (b : Browser) (html : Str), html ≠ [] →
      stripHtml b (Val.str html) = Except.ok (summarize (b.textContent html))) ∧
    lit "😀" = [0xD83D, 0xDE00] ∧
    summarize ((List.replicate 100 (lit "😀")).flatten) =
      (List.replicate 75 (lit "😀")).flatten ++ lit "..." := by
  refine ⟨?_, ?_, by decide, by decide⟩
  · unfold summarize
    by_cases h : p.length ≤ 150
    · have h2 : ¬ p.length > 150 := by omega
      simp only [h, h2, if_true, if_false]
    · have h2 : p.length > 150 := by omega
      simp only [h, h2, if_true, if_false]
      exact trim_append_dots _
  · intro b html h
    simp only [stripHtml, h, if_false]

set_option maxRecDepth 100000 in
/-- C4, counterexample: for `a` followed by 150 spaces the trimmed text is `a`, of
one code unit, yet the summary is `a...`. -/
theorem summarize_differs_from_claimed :
    (trim (lit "a" ++ List.replicate 150 (u ' '))).length ≤ 150 ∧
    summaryAsClaimed (lit "a" ++ List.replicate 150 (u ' ')) = lit "a" ∧
    summarize (lit "a" ++ List.replicate 150 (u ' ')) = lit "a..." ∧
    summarize (lit "a" ++ List.replicate 150 (u ' ')) ≠
      summaryAsClaimed (lit "a" ++ List.replicate 150 (u ' ')) := by
  decide

/-- A successful `startsWithNoCase` splits off a part that is the pattern up to case. -/
theorem startsWithNoCase_split (p s : Str) (h : startsWithNoCase p s = true) :
    ∃ head : Str, s = head ++ s.drop p.length ∧ head.map toLowerUnit = p := by
  induction p generalizing s with
  | nil => exact ⟨[], rfl, rfl⟩
  | cons a p ih =>
    cases s with
    | nil => simp [startsWithNoCase] at h
    | cons c cs =>
      simp only [startsWithNoCase, Bool.and_eq_true, beq_iff_eq] at h
      obtain ⟨head, h1, h2⟩ := ih cs h.2
      refine ⟨c :: head, ?_, ?_⟩
      · simp only [List.length_cons, List.drop_succ_cons, List.cons_append]
        rw [← h1]
      · simp only [List.map_cons, h.1, h2]

/-- A text that starts with the pattern up to case passes `startsWithNoCase`. -/
theorem startsWithNoCase_of_split (head rest : Str) :
    startsWithNoCase (head.map toLowerUnit) (head ++ rest) = true := by
  induction head with
  | nil => rfl
  | cons c cs ih =>
    show (toLowerUnit c == toLowerUnit c &&
      startsWithNoCase (cs.map toLowerUnit) (cs ++ rest)) = true
    rw [ih, beq_self_eq_true]
    rfl

/-- What `matchSrc` captures stands between two quotes after `src=`. -/
theorem matchSrc_sound (s r : Str) (h : matchSrc s = some r) :
    ∃ (key : Str) (q1 q2 : Nat) (post : Str),
      s = key ++ q1 :: r ++ q2 :: post ∧ key.map toLowerUnit = lit "src=" ∧
      isQuote q1 = true ∧ isQuote q2 = true ∧ r ≠ [] ∧ ∀ c ∈ r, isQuote c = false := by
  unfold matchSrc at h
  split at h
  · next hs =>
    obtain ⟨key, hk1, hk2⟩ := startsWithNoCase_split _ s hs
    have hlen : (lit "src=").length = 4 := by decide
    rw [hlen] at hk1
    split at h
    · exact absurd h (by simp)
    · next q rest hd =>
      split at h
      · next hq =>
        split at h
        · exact absurd h (by simp)
        · exact absurd h (by simp)
        · next c cap q2 post htake hdrop =>
          simp only [Option.some.injEq] at h
          subst h
          have hsplit := List.takeWhile_append_dropWhile (fun c => !isQuote c) rest
          rw [htake, hdrop] at hsplit
          have hq2 : isQuote q2 = true := by
            have hne : rest.dropWhile (fun c => !isQuote c) ≠ [] := by rw [hdrop]; simp
            have := List.head_dropWhile_not (fun c => !isQuote c) rest hne
            simp only [hdrop, List.head_cons, Bool.not_eq_false'] at this
            exact this
          refine ⟨key, q, q2, post, ?_, hk2, hq, hq2, by simp, ?_⟩
          · have e : s.drop 4 = q :: rest := hd
            rw [hk1, e, ← hsplit]
            simp
          · intro x hx
            have hx2 : x ∈ rest.takeWhile (fun c => !isQuote c) := by rw [htake]; exact hx
            have := List.mem_takeWhile_imp hx2
            simpa using this
      · exact absurd h (by simp)
  · exact absurd h (by simp)

/-- Where `src=`, a quote, a non-empty text without quotes and a quote stand,
`matchSrc` captures that text. -/
theorem matchSrc_complete (key : Str) (q1 q2 : Nat) (r post : Str)
    (hkey : key.map toLowerUnit = lit "src=") (hq1 : isQuote q1 = true)
    (hq2 : isQuote q2 = true) (hr : r ≠ []) (hrq : ∀ c ∈ r, isQuote c = false) :
    matchSrc (key ++ q1 :: r ++ q2 :: post) = some r := by
  have hlen : key.length = 4 := by
    have := congrArg List.length hkey
    rw [List.length_map] at this
    rw [this]
    decide
  have hstart : startsWithNoCase (lit "src=") (key ++ q1 :: r ++ q2 :: post) = true := by
    rw [← hkey, List.append_assoc]
    exact startsWithNoCase_of_split key _
  have hdrop : (key ++ q1 :: r ++ q2 :: post).drop 4 = q1 :: (r ++ q2 :: post) := by
    rw [List.append_assoc, ← hlen, List.drop_left]
    rfl
  have hp : ∀ a ∈ r, (fun c => !isQuote c) a = true := by
    intro a ha
    simp [hrq a ha]
  have hn : ¬ (fun c => !isQuote c) q2 = true := by simp [hq2]
  have htake : (r ++ q2 :: post).takeWhile (fun c => !isQuote c) = r := by
    rw [List.takeWhile_append_of_pos hp]
    simp [List.takeWhile_cons, hq2]
  have hdw : (r ++ q2 :: post).dropWhile (fun c => !isQuote c) = q2 :: post := by
    rw [List.dropWhile_append_of_pos hp]
    simp [List.dropWhile_cons, hq2]
  unfold matchSrc
  rw [if_pos hstart, hdrop]
  simp only [hq1, if_true, htake, hdw]
  cases r with
  | nil => exact absurd rfl hr
  | cons c cap => rfl

/-- What `matchTag` returns: nothing when `src=...` matches after no non-empty run
without `>`; otherwise the capture after the longest such run. -/
theorem matchTag_spec (s : Str) :
    (matchTag s = none → ∀ mid rest r : Str, s = mid ++ rest → mid ≠ [] → u '>' ∉ mid →
      matchSrc rest ≠ some r) ∧
    (∀ r : Str, matchTag s = some r → ∃ mid rest : Str,
      s = mid ++ rest ∧ mid ≠ [] ∧ u '>' ∉ mid ∧ matchSrc rest = some r ∧
      ∀ mid' rest' r' : Str, s = mid' ++ rest' → mid' ≠ [] → u '>' ∉ mid' →
        matchSrc rest' = some r' → mid'.length ≤ mid.length) := by
  induction s with
  | nil =>
    refine ⟨fun _ mid rest r h hmid => ?_, fun r h => ?_⟩
    · exact absurd (List.append_eq_nil.mp h.symm).1 hmid
    · simp [matchTag] at h
  | cons c cs ih =>
    obtain ⟨ihn, ihs⟩ := ih
    by_cases hc : c = u '>'
    · have hnone : matchTag (c :: cs) = none := by simp [matchTag, hc]
      refine ⟨fun _ mid rest r h hmid hgt => ?_, fun r h => ?_⟩
      · cases mid with
        | nil => exact absurd rfl hmid
        | cons a m =>
          simp only [List.cons_append, List.cons.injEq] at h
          exact absurd (by rw [← h.1, hc]; exact List.mem_cons_self _ _) hgt
      · rw [hnone] at h
        exact absurd h (by simp)
    · cases ht : matchTag cs with
      | some r1 =>
        have hres : matchTag (c :: cs) = some r1 := by simp [matchTag, hc, ht]
        obtain ⟨mid, rest, e, hmid, hgt, hsrc, hmax⟩ := ihs r1 ht
        refine ⟨fun h => ?_, fun r h => ?_⟩
        · rw [hres] at h
          exact absurd h (by simp)
        · rw [hres] at h
          simp only [Option.some.injEq] at h
          subst h
          refine ⟨c :: mid, rest, by rw [e]; rfl, by simp, ?_, hsrc, ?_⟩
          · intro hm
            rcases List.mem_cons.mp hm with hm | hm
            · exact hc hm.symm
            · exact hgt hm
          · intro mid' rest' r' e' hmid' hgt' hsrc'
            cases mid' with
            | nil => exact absurd rfl hmid'
            | cons a m =>
              simp only [List.cons_append, List.cons.injEq] at e'
              cases m with
              | nil => simp
              | cons a2 m2 =>
                have := hmax (a2 :: m2) rest' r' e'.2 (by simp)
                  (fun hm => hgt' (List.mem_cons_of_mem _ hm)) hsrc'
                simp only [List.length_cons] at this ⊢
                omega
      | none =>
        have hres : matchTag (c :: cs) = matchSrc cs := by simp [matchTag, hc, ht]
        have hone : ∀ mid' rest' r' : Str, c :: cs = mid' ++ rest' → mid' ≠ [] →
            u '>' ∉ mid' → matchSrc rest' = some r' → mid' = [c] ∧ rest' = cs := by
          intro mid' rest' r' e' hmid' hgt' hsrc'
          cases mid' with
          | nil => exact absurd rfl hmid'
          | cons a m =>
            simp only [List.cons_append, List.cons.injEq] at e'
            cases m with
            | nil => exact ⟨by rw [e'.1], e'.2.symm⟩
            | cons a2 m2 =>
              exact absurd hsrc' (ihn ht (a2 :: m2) rest' r' e'.2 (by simp)
                (fun hm => hgt' (List.mem_cons_of_mem _ hm)))
        refine ⟨fun h mid rest r e hmid hgt hsrc => ?_, fun r h => ?_⟩
        · obtain ⟨-, h2⟩ := hone mid rest r e hmid hgt hsrc
          rw [hres] at h
          rw [h2, h] at hsrc
          exact absurd hsrc (by simp)
        · rw [hres] at h
          refine ⟨[c], cs, rfl, by simp, ?_, h, ?_⟩
          · intro hm
            exact hc (List.mem_singleton.mp hm).symm
          · intro mid' rest' r' e' hmid' hgt' hsrc'
            rw [(hone mid' rest' r' e' hmid' hgt' hsrc').1]

/-- A text that starts with `<img` up to case: the test of `firstImgSrc` succeeds
and what it hands to `matchTag` is the rest. -/
theorem startsWithImg (tag rest : Str) (htag : tag.map toLowerUnit = lit "<img") :
    ∃ (c : Nat) (cs : Str), tag ++ rest = c :: cs ∧
      startsWithNoCase (lit "<img") (c :: cs) = true ∧ cs.drop 3 = rest := by
  have hlen : tag.length = 4 := by
    have := congrArg List.length htag
    rw [List.length_map] at this
    rw [this]
    decide
  match tag, hlen, htag with
  | [a1, a2, a3, a4], _, htag =>
    refine ⟨a1, a2 :: a3 :: a4 :: rest, rfl, ?_, rfl⟩
    have := startsWithNoCase_of_split [a1, a2, a3, a4] rest
    rw [htag] at this
    exact this

/-- What `firstImgSrc` returns: nothing when the pattern matches nowhere; otherwise
the capture of the match that starts first. -/
theorem firstImgSrc_spec (s : Str) :
    (firstImgSrc s = none → ∀ pre tag rest r : Str, s = pre ++ tag ++ rest →
      tag.map toLowerUnit = lit "<img" → matchTag rest ≠ some r) ∧
    (∀ r : Str, firstImgSrc s = some r → ∃ pre tag rest : Str,
      s = pre ++ tag ++ rest ∧ tag.map toLowerUnit = lit "<img" ∧ matchTag rest = some r ∧
      ∀ pre' tag' rest' r' : Str, s = pre' ++ tag' ++ rest' →
        tag'.map toLowerUnit = lit "<img" → matchTag rest' = some r' →
        pre.length ≤ pre'.length) := by
  induction s with
  | nil =>
    refine ⟨fun _ pre tag rest r h htag => ?_, fun r h => ?_⟩
    · have h1 := List.append_eq_nil.mp h.symm
      have h2 := (List.append_eq_nil.mp h1.1).2
      rw [h2] at htag
      have hne : ([] : Str) ≠ lit "<img" := by decide
      exact absurd htag hne
    · simp [firstImgSrc] at h
  | cons c cs ih =>
    obtain ⟨ihn, ihs⟩ := ih
    cases hx : (if startsWithNoCase (lit "<img") (c :: cs) then matchTag (cs.drop 3)
        else none) with
    | some r1 =>
      have hres : firstImgSrc (c :: cs) = some r1 := by
        simp only [firstImgSrc, hx]
      have hstart : startsWithNoCase (lit "<img") (c :: cs) = true := by
        by_contra hno
        rw [if_neg hno] at hx
        exact absurd hx (by simp)
      rw [if_pos hstart] at hx
      obtain ⟨tag, e, htag⟩ := startsWithNoCase_split _ (c :: cs) hstart
      refine ⟨fun h => ?_, fun r h => ?_⟩
      · rw [hres] at h
        exact absurd h (by simp)
      · rw [hres] at h
        simp only [Option.some.injEq] at h
        subst h
        refine ⟨[], tag, cs.drop 3, by simpa using e, htag, hx, ?_⟩
        intro pre' tag' rest' r' _ _ _
        exact Nat.zero_le _
    | none =>
      have hres : firstImgSrc (c :: cs) = firstImgSrc cs := by
        simp only [firstImgSrc, hx]
      have hhead : ∀ tag' rest' r' : Str, c :: cs = tag' ++ rest' →
          tag'.map toLowerUnit = lit "<img" → matchTag rest' ≠ some r' := by
        intro tag' rest' r' e' htag' hm
        obtain ⟨c2, cs2, e2, hstart, hdrop⟩ := startsWithImg tag' rest' htag'
        rw [← e'] at e2
        simp only [List.cons.injEq] at e2
        obtain ⟨e3, e4⟩ := e2
        subst e3
        subst e4
        rw [if_pos hstart, hdrop, hm] at hx
        exact absurd hx (by simp)
      refine ⟨fun h pre tag rest r e htag => ?_, fun r h => ?_⟩
      · rw [hres] at h
        cases pre with
        | nil => exact hhead tag rest r (by simpa using e) htag
        | cons a p =>
          simp only [List.cons_append, List.cons.injEq] at e
          exact ihn h p tag rest r e.2 htag
      · rw [hres] at h
        obtain ⟨pre, tag, rest, e, htag, hm, hmin⟩ := ihs r h
        refine ⟨c :: pre, tag, rest, by rw [e]; rfl, htag, hm, ?_⟩
        intro pre' tag' rest' r' e' htag' hm'
        cases pre' with
        | nil => exact absurd hm' (hhead tag' rest' r' (by simpa using e') htag')
        | cons a p =>
          simp only [List.cons_append, List.cons.injEq] at e'
          have := hmin p tag' rest' r' e'.2 htag' hm'
          simp only [List.length_cons]
          omega

/-- A match of the pattern, read as what `firstImgSrc` and `matchTag` look at. -/
theorem imgSrcMatch_parts (content pre mid r : Str) (h : ImgSrcMatch content pre mid r) :
    ∃ tag tail : Str, content = pre ++ tag ++ (mid ++ tail) ∧
      tag.map toLowerUnit = lit "<img" ∧ mid ≠ [] ∧ u '>' ∉ mid ∧ matchSrc tail = some r := by
  obtain ⟨tag, key, q1, q2, post, e, htag, hmid, hgt, hkey, hq1, hq2, hr, hrq⟩ := h
  refine ⟨tag, key ++ q1 :: r ++ q2 :: post, ?_, htag, hmid, hgt,
    matchSrc_complete key q1 q2 r post hkey hq1 hq2 hr hrq⟩
  rw [e]
  simp only [List.append_assoc]

/-- What `firstImgSrc` returns, in terms of the matches of the pattern: nothing
when there is none; otherwise the capture of the match that starts first and,
among those, has the longest run before `src=`. -/
theorem firstImgSrc_match (content : Str) :
    (firstImgSrc content = none → ∀ pre mid r : Str, ¬ ImgSrcMatch content pre mid r) ∧
    (∀ r : Str, firstImgSrc content = some r → ∃ pre mid : Str,
      ImgSrcMatch content pre mid r ∧
      ∀ pre' mid' r' : Str, ImgSrcMatch content pre' mid' r' →
        pre.length < pre'.length ∨ (pre.length = pre'.length ∧ mid'.length ≤ mid.length)) := by
  obtain ⟨hn, hs⟩ := firstImgSrc_spec content
  have htagSome : ∀ mid tail r : Str, mid ≠ [] → u '>' ∉ mid → matchSrc tail = some r →
      ∃ r2, matchTag (mid ++ tail) = some r2 := by
    intro mid tail r hmid hgt hsrc
    cases hm : matchTag (mid ++ tail) with
    | some r2 => exact ⟨r2, rfl⟩
    | none => exact absurd hsrc ((matchTag_spec (mid ++ tail)).1 hm mid tail r rfl hmid hgt)
  refine ⟨fun h pre mid r hmatch => ?_, fun r h => ?_⟩
  · obtain ⟨tag, tail, e, htag, hmid, hgt, hsrc⟩ := imgSrcMatch_parts content pre mid r hmatch
    obtain ⟨r2, hr2⟩ := htagSome mid tail r hmid hgt hsrc
    exact hn h pre tag (mid ++ tail) r2 e htag hr2
  · obtain ⟨pre, tag, rest, e, htag, hm, hmin⟩ := hs r h
    obtain ⟨mid, tail, e2, hmid, hgt, hsrc, hmax⟩ := (matchTag_spec rest).2 r hm
    obtain ⟨key, q1, q2, post, e3, hkey, hq1, hq2, hr, hrq⟩ := matchSrc_sound tail r hsrc
    refine ⟨pre, mid, ⟨tag, key, q1, q2, post, ?_, htag, hmid, hgt, hkey, hq1, hq2, hr, hrq⟩, ?_⟩
    · rw [e, e2, e3]
      simp only [List.append_assoc]
    · intro pre' mid' r' hmatch'
      obtain ⟨tag', tail', e', htag', hmid', hgt', hsrc'⟩ :=
        imgSrcMatch_parts content pre' mid' r' hmatch'
      obtain ⟨r2, hr2⟩ := htagSome mid' tail' r' hmid' hgt' hsrc'
      have hle := hmin pre' tag' (mid' ++ tail') r2 e' htag' hr2
      rcases Nat.lt_or_eq_of_le hle with hlt | heq
      · exact Or.inl hlt
      · refine Or.inr ⟨heq, ?_⟩
        have hl4 : ∀ t : Str, t.map toLowerUnit = lit "<img" → t.length = 4 := by
          intro t ht
          have := congrArg List.length ht
          rw [List.length_map] at this
          rw [this]
          decide
        have e4 : pre ++ (tag ++ rest) = pre' ++ (tag' ++ (mid' ++ tail')) := by
          rw [← List.append_assoc, ← List.append_assoc, ← e, ← e']
        obtain ⟨-, e5⟩ := List.append_inj e4 heq
        obtain ⟨-, e6⟩ := List.append_inj e5 (by rw [hl4 tag htag, hl4 tag' htag'])
        exact hmax mid' tail' r' (by rw [e6]) hmid' hgt' hsrc'

/-- A value that is a string or absent is truthy exactly when it is a non-empty
string. -/
theorem truthy_of_shape (v : Val) (h : v.isStringOrAbsent = true) :
    (v.truthy = true ∧ ∃ s : Str, v = Val.str s ∧ s ≠ [] ∧ v.nonEmptyText = some s) ∨
    (v.truthy = false ∧ v.nonEmptyText = none ∧ (v = Val.str [] ∨ v.text = [])) := by
  cases v with
  | undefined => exact Or.inr ⟨rfl, rfl, Or.inr rfl⟩
  | null => exact Or.inr ⟨rfl, rfl, Or.inr rfl⟩
  | other t x => simp [Val.isStringOrAbsent] at h
  | str s =>
    by_cases hs : s = []
    · subst hs
      exact Or.inr ⟨rfl, rfl, Or.inl rfl⟩
    · exact Or.inl ⟨by simp [Val.truthy, hs], s, rfl, hs, by simp [Val.nonEmptyText, hs]⟩

/-- The properties of an entry of the interface's shape are strings or absent. -/
theorem wellShaped_fields (it : Item) (h : it.wellShaped = true) :
    it ≠ Item.null ∧ it.title.isStringOrAbsent = true ∧ it.link.isStringOrAbsent = true ∧
    it.thumbnail.isStringOrAbsent = true ∧ it.content.isStringOrAbsent = true ∧
    it.description.isStringOrAbsent = true ∧ it.contentSnippet.isStringOrAbsent = true ∧
    it.enclosureLink.isStringOrAbsent = true := by
  cases it with
  | null => simp [Item.wellShaped] at h
  | record title link thumbnail content description contentSnippet enclosure =>
    simp only [Item.wellShaped, Bool.and_eq_true] at h
    obtain ⟨⟨⟨⟨⟨⟨h1, h2⟩, h3⟩, h4⟩, h5⟩, h6⟩, h7⟩ := h
    refine ⟨by simp, h1, h2, h3, h4, h5, h6, ?_⟩
    cases enclosure with
    | nullish => rfl
    | record l => exact h7

/-- On a string or an absent value `extractImageFromContent` is `firstImgSrc` on
the text. -/
theorem extractImageFromContent_of_shape (b : Browser) (v : Val)
    (h : v.isStringOrAbsent = true) :
    extractImageFromContent b v = Except.ok (firstImgSrc v.text) := by
  cases v with
  | undefined => rfl
  | null => rfl
  | other t x => simp [Val.isStringOrAbsent] at h
  | str s =>
    by_cases hs : s = []
    · subst hs
      rfl
    · simp [extractImageFromContent, hs, Val.text]

/-- The constant `FALLBACK_IMAGE` is not empty. -/
theorem fallback_ne_nil (b : Browser) : FALLBACK_IMAGE b ≠ [] := by
  unfold FALLBACK_IMAGE
  intro h
  have h2 := (List.append_eq_nil.mp h).1
  have h3 : lit "data:image/svg+xml;charset=UTF-8," ≠ [] := by decide
  exact h3 h2

/-- A capture of `firstImgSrc` is not empty. -/
theorem firstImgSrc_ne_nil (content r : Str) (h : firstImgSrc content = some r) : r ≠ [] := by
  obtain ⟨pre, mid, ⟨_, _, _, _, _, _, _, _, _, _, _, _, hr, _⟩, _⟩ :=
    (firstImgSrc_match content).2 r h
  exact hr

/-- The image of an entry of the interface's shape: the first non-empty of
thumbnail, enclosure link and the capture in the content, else the fallback. -/
theorem itemImage_of_shape (b : Browser) (it : Item) (hshape : it.wellShaped = true) :
    itemImage b it = Except.ok (Val.str
      ((firstNonEmpty [it.thumbnail.nonEmptyText, it.enclosureLink.nonEmptyText,
        firstImgSrc it.content.text]).getD (FALLBACK_IMAGE b))) := by
  obtain ⟨-, -, -, hth, hco, -, -, hen⟩ := wellShaped_fields it hshape
  unfold itemImage
  rcases truthy_of_shape _ hth with ⟨t1, s1, e1, n1, x1⟩ | ⟨t1, x1, -⟩
  · rw [if_pos t1, x1, e1]
    simp [firstNonEmpty, n1]
  · rw [if_neg (by simp [t1]), x1]
    rcases truthy_of_shape _ hen with ⟨t2, s2, e2, n2, x2⟩ | ⟨t2, x2, -⟩
    · rw [if_pos t2, x2, e2]
      simp [firstNonEmpty, n2]
    · rw [if_neg (by simp [t2]), x2, extractImageFromContent_of_shape b _ hco]
      cases hf : firstImgSrc it.content.text with
      | none => simp [firstNonEmpty]
      | some src =>
        have hsrc := firstImgSrc_ne_nil _ _ hf
        simp [firstNonEmpty, hsrc, Val.orElse, Val.truthy]

/-- C6, as the code has it: for an item whose properties are strings or absent the
image is the first non-empty of `thumbnail`, `enclosure.link` and the text the
pattern `/<img[^>]+src=["']([^"']+)["']/i` captures in `content`, else the fallback
image; it is never empty, a non-empty thumbnail wins, and an item with neither
thumbnail nor enclosure link nor a match in its content gets the fallback. The
pattern captures nothing exactly when it matches nowhere; otherwise it captures
from the match that starts first and, within that tag, from the last `src=`, which
may be the end of another attribute name. -/
theorem itemImage_priority (b : Browser) (it : Item) (hshape : it.wellShaped = true) :
    itemImage b it = Except.ok (Val.str
      ((firstNonEmpty [it.thumbnail.nonEmptyText, it.enclosureLink.nonEmptyText,
        firstImgSrc it.content.text]).getD (FALLBACK_IMAGE b))) ∧
    (firstNonEmpty [it.thumbnail.nonEmptyText, it.enclosureLink.nonEmptyText,
        firstImgSrc it.content.text]).getD (FALLBACK_IMAGE b) ≠ [] ∧
    (∀ th : Str, it.thumbnail = Val.str th → th ≠ [] →
      itemImage b it = Except.ok (Val.str th)) ∧
    (it.thumbnail.nonEmptyText = none → it.enclosureLink.nonEmptyText = none →
      (∀ pre mid r : Str, ¬ ImgSrcMatch it.content.text pre mid r) →
      itemImage b it = Except.ok (Val.str (FALLBACK_IMAGE b))) ∧
    (∀ content : Str,
      (firstImgSrc content = none ↔ ∀ pre mid r : Str, ¬ ImgSrcMatch content pre mid r) ∧
      (∀ r : Str, firstImgSrc content = some r → ∃ pre mid : Str,
        ImgSrcMatch content pre mid r ∧
        ∀ pre' mid' r' : Str, ImgSrcMatch content pre' mid' r' →
          pre.length < pre'.length ∨
            (pre.length = pre'.length ∧ mid'.length ≤ mid.length))) := by
  have himg := itemImage_of_shape b it hshape
  have hnone : ∀ content : Str, (∀ pre mid r : Str, ¬ ImgSrcMatch content pre mid r) →
      firstImgSrc content = none := by
    intro content hno
    cases hf : firstImgSrc content with
    | none => rfl
    | some r =>
      obtain ⟨pre, mid, hm, -⟩ := (firstImgSrc_match content).2 r hf
      exact absurd hm (hno pre mid r)
  refine ⟨himg, ?_, ?_, ?_, ?_⟩
  · obtain ⟨-, -, -, hth, -, -, -, hen⟩ := wellShaped_fields it hshape
    have hfb := fallback_ne_nil b
    rcases truthy_of_shape _ hth with ⟨-, s1, -, n1, x1⟩ | ⟨-, x1, -⟩
    · rw [x1]
      simp [firstNonEmpty, n1]
    · rw [x1]
      rcases truthy_of_shape _ hen with ⟨-, s2, -, n2, x2⟩ | ⟨-, x2, -⟩
      · rw [x2]
        simp [firstNonEmpty, n2]
      · rw [x2]
        cases hf : firstImgSrc it.content.text with
        | none => simpa [firstNonEmpty] using hfb
        | some src =>
          have hsrc := firstImgSrc_ne_nil _ _ hf
          simp [firstNonEmpty, hsrc]
  · intro th h1 h2
    rw [himg, h1]
    simp [firstNonEmpty, Val.nonEmptyText, h2]
  · intro h1 h2 h3
    rw [himg, h1, h2, hnone _ h3]
    rfl
  · intro content
    exact ⟨⟨(firstImgSrc_match content).1, hnone content⟩, (firstImgSrc_match content).2⟩

/-- C6 at a sample: an item with nothing but inline markup. -/
theorem itemImage_priority_witness :
    sampleInlineItem.wellShaped = true ∧
    itemImage sampleBrowser sampleInlineItem = Except.ok (Val.str (lit "b.png")) := by
  refine ⟨by decide, ?_⟩
  rw [(itemImage_priority sampleBrowser sampleInlineItem (by decide)).1]
  have e : (firstNonEmpty [sampleInlineItem.thumbnail.nonEmptyText,
      sampleInlineItem.enclosureLink.nonEmptyText,
      firstImgSrc sampleInlineItem.content.text]).getD (FALLBACK_IMAGE sampleBrowser) =
      lit "b.png" := by decide
  rw [e]

/-- C6, counterexample: in `<img src="a.png" data-src="b.png">` the `src` of the
tag is `a.png`, and the image taken is `b.png`, the value of `data-src`. -/
theorem itemImage_takes_last_src :
    sampleInlineItem.content = Val.str (lit "<img src=\"a.png\" data-src=\"b.png\">") ∧
    firstImgSrcAsClaimed (lit "<img src=\"a.png\" data-src=\"b.png\">") = some (lit "a.png") ∧
    firstImgSrc (lit "<img src=\"a.png\" data-src=\"b.png\">") = some (lit "b.png") ∧
    (itemImage sampleBrowser sampleInlineItem).toOption = some (Val.str (lit "b.png")) ∧
    (itemImage sampleBrowser sampleInlineItem).toOption ≠ some (Val.str (lit "a.png")) := by
  decide

/-- A decimal digit is none of `&`, `<`, `>`. -/
theorem digitChar_plain (n : Nat) : (Nat.digitChar (n % 10)).toNat ≠ u '&' ∧
    (Nat.digitChar (n % 10)).toNat ≠ u '<' ∧ (Nat.digitChar (n % 10)).toNat ≠ u '>' := by
  have h : n % 10 < 10 := Nat.mod_lt n (by decide)
  generalize n % 10 = m at h
  interval_cases m <;> decide

/-- The digits of a number hold none of `&`, `<`, `>`. -/
theorem toDigitsCore_plain (fuel n : Nat) (ds : List Char)
    (h : ∀ c ∈ ds, c.toNat ≠ u '&' ∧ c.toNat ≠ u '<' ∧ c.toNat ≠ u '>') :
    ∀ c ∈ Nat.toDigitsCore 10 fuel n ds,
      c.toNat ≠ u '&' ∧ c.toNat ≠ u '<' ∧ c.toNat ≠ u '>' := by
  induction fuel generalizing n ds with
  | zero => simpa [Nat.toDigitsCore] using h
  | succ f ih =>
    have hcons : ∀ c ∈ Nat.digitChar (n % 10) :: ds,
        c.toNat ≠ u '&' ∧ c.toNat ≠ u '<' ∧ c.toNat ≠ u '>' := by
      intro c hc
      rcases List.mem_cons.mp hc with hc | hc
      · rw [hc]; exact digitChar_plain n
      · exact h c hc
    unfold Nat.toDigitsCore
    simp only
    split
    · exact hcons
    · exact ih _ _ hcons

/-- The message of a failed request passes through `escapeHtml` unchanged. -/
theorem escapeHtml_failed_status (c : Nat) :
    escapeHtml (lit "Failed to fetch feed: " ++ numToStr c) =
      lit "Failed to fetch feed: " ++ numToStr c := by
  apply escapeHtml_of_plain
  intro x hx
  have hlit : ∀ y ∈ lit "Failed to fetch feed: ", y ≠ u '&' ∧ y ≠ u '<' ∧ y ≠ u '>' := by
    decide
  rcases List.mem_append.mp hx with hx | hx
  · exact hlit x hx
  · obtain ⟨ch, hch, e⟩ := List.mem_map.mp hx
    rw [← e]
    exact toDigitsCore_plain _ _ [] (by simp) ch hch

/-- A call of `loadTopic` whose container exists and whose URL is usable replaces
the container by what `settle` renders for the answer of the network. -/
theorem loadTopic_of_request (b : Browser) (fetch : Str → FetchOutcome) (dom : Dom) (t : Topic)
    (url : Str) (hroot : (dom (carouselId t)).isSome = true)
    (hurl : requestUrl b t = Except.ok url) :
    loadTopic b fetch dom t =
      Function.update dom (carouselId t) (some (settle b t (fetch url))) := by
  unfold loadTopic loadTopicStart
  cases hd : dom (carouselId t) with
  | none => rw [hd] at hroot; exact absurd hroot (by simp)
  | some root =>
    simp only [hurl]
    rfl

/-- C8: when the request of `loadTopic(t)` is answered with a status outside
200-299, the document afterwards is the document before with only the container
`carousel-<t.id>` replaced, by the error panel with the title escaped and the
message `Failed to fetch feed: <status>`; every other container is unchanged. -/
theorem loadTopic_http_failure_frame (b : Browser) (fetch : Str → FetchOutcome) (dom : Dom)
    (t : Topic) (url : Str) (c : Nat) (body : Body)
    (hroot : (dom (carouselId t)).isSome = true) (hurl : requestUrl b t = Except.ok url)
    (hfetch : fetch url = FetchOutcome.response c body) (hc : httpOk c = false) :
    loadTopic b fetch dom t =
      Function.update dom (carouselId t)
        (some (Panel.error t.title (lit "Failed to fetch feed: " ++ numToStr c))) ∧
    (∀ k : Str, k ≠ carouselId t → loadTopic b fetch dom t k = dom k) ∧
    (Panel.error t.title (lit "Failed to fetch feed: " ++ numToStr c)).innerHTML b =
      lit "<div class=\"alert alert-danger\">Could not load \"" ++ escapeHtml t.title ++
        lit "\". Failed to fetch feed: " ++ numToStr c ++ lit "</div>" := by
  have hload := loadTopic_of_request b fetch dom t url hroot hurl
  have hsettle : settle b t (fetch url) =
      Panel.error t.title (lit "Failed to fetch feed: " ++ numToStr c) := by
    rw [hfetch]
    simp [settle, hc]
  rw [hsettle] at hload
  refine ⟨hload, ?_, ?_⟩
  · intro k hk
    rw [hload, Function.update_noteq hk]
  · have e : lit "\". Failed to fetch feed: " = lit "\". " ++ lit "Failed to fetch feed: " := by
      decide
    simp only [Panel.innerHTML, errorHtml, escapeHtml_failed_status, e, List.append_assoc]

/-- C8 at a sample: status 500 for `topic0` leaves the loaded panel of `topic1`. -/
theorem loadTopic_http_failure_frame_witness :
    httpOk 500 = false ∧
    loadTopic sampleBrowser (fun _ => FetchOutcome.response 500 (Body.failed []))
        sampleDom sampleTopic (lit "carousel-topic1") = some (Panel.info (lit "Sport")) ∧
    loadTopic sampleBrowser (fun _ => FetchOutcome.response 500 (Body.failed []))
        sampleDom sampleTopic (lit "carousel-topic0") =
      some (Panel.error (lit "News") (lit "Failed to fetch feed: 500")) := by
  have h := loadTopic_http_failure_frame sampleBrowser
    (fun _ => FetchOutcome.response 500 (Body.failed [])) sampleDom sampleTopic sampleRequest
    500 (Body.failed []) (by decide) rfl rfl (by decide)
  refine ⟨by decide, ?_, ?_⟩
  · rw [h.2.1 _ (by decide)]
    decide
  · rw [h.1]
    decide

/-- The value `a || d` is `d` for a falsy `a`. -/
theorem orElse_falsy (a d : Val) (h : a.truthy = false) : a.orElse d = d := by
  simp [Val.orElse, h]

/-- The value `a || d` is `a` for a truthy `a`. -/
theorem orElse_truthy (a d : Val) (h : a.truthy = true) : a.orElse d = a := by
  simp [Val.orElse, h]

/-- The value `a || d` for a string-or-absent `a` and a string `d`. -/
theorem orElse_of_shape (a : Val) (d : Str) (h : a.isStringOrAbsent = true) :
    a.orElse (Val.str d) = Val.str (a.nonEmptyText.getD d) := by
  rcases truthy_of_shape a h with ⟨-, s1, e1, n1, -⟩ | ⟨t1, x1, -⟩
  · simp [e1, Val.orElse, Val.truthy, Val.nonEmptyText, n1]
  · rw [x1]
    simp [Val.orElse, t1]

/-- The card of an entry of the interface's shape: no step of the callback throws,
and every value comes from the entry, with the defaults of lines 86-90. -/
theorem itemCard_of_shape (b : Browser) (it : Item) (idx : Nat) (hshape : it.wellShaped = true) :
    itemCard b it idx = Except.ok
      { active := decide (idx = 0)
        link := it.link.nonEmptyText.getD (lit "#")
        image := (firstNonEmpty [it.thumbnail.nonEmptyText, it.enclosureLink.nonEmptyText,
          firstImgSrc it.content.text]).getD (FALLBACK_IMAGE b)
        title := it.title.nonEmptyText.getD (lit "Untitled")
        description :=
          (match firstNonEmpty [it.description.nonEmptyText, it.contentSnippet.nonEmptyText] with
            | some s => summarize (b.textContent s)
            | none => []) } := by
  obtain ⟨hnn, hti, hli, -, -, hde, hcs, -⟩ := wellShaped_fields it hshape
  have himg := itemImage_of_shape b it hshape
  have hdesc : stripHtml b (it.description.orElse (it.contentSnippet.orElse (Val.str []))) =
      Except.ok (match firstNonEmpty [it.description.nonEmptyText,
          it.contentSnippet.nonEmptyText] with
        | some s => summarize (b.textContent s)
        | none => []) := by
    rcases truthy_of_shape _ hde with ⟨t1, s1, e1, n1, x1⟩ | ⟨t1, x1, -⟩
    · rw [orElse_truthy _ _ t1, x1, e1]
      simp [stripHtml, n1, firstNonEmpty]
    · rw [orElse_falsy _ _ t1, x1]
      rcases truthy_of_shape _ hcs with ⟨t2, s2, e2, n2, x2⟩ | ⟨t2, x2, -⟩
      · rw [orElse_truthy _ _ t2, x2, e2]
        simp [stripHtml, n2, firstNonEmpty]
      · rw [orElse_falsy _ _ t2, x2]
        simp [stripHtml, firstNonEmpty]
  cases it with
  | null => exact absurd rfl hnn
  | record title link thumbnail content description contentSnippet enclosure =>
    simp only [itemCard, himg, hdesc, orElse_of_shape _ _ hli, orElse_of_shape _ _ hti, textOf]

/-- When no callback throws, `items.map` gives one card per item, in order, the
card at position `k` being that of the item at position `k` for its index. -/
theorem cardsFrom_ok (b : Browser) (items : List Item) (idx : Nat)
    (h : ∀ it ∈ items, ∃ card : Nat → Card, itemCard b it = fun i => Except.ok (card i)) :
    ∃ cards : List Card, cardsFrom b idx items = Except.ok cards ∧
      cards.length = items.length ∧
      ∀ (k : Nat) (h1 : k < cards.length) (h2 : k < items.length),
        itemCard b items[k] (idx + k) = Except.ok cards[k] := by
  induction items generalizing idx with
  | nil => exact ⟨[], rfl, rfl, fun k h1 => absurd h1 (by simp)⟩
  | cons it rest ih =>
    obtain ⟨card, hcard⟩ := h it (List.mem_cons_self _ _)
    obtain ⟨cards, hc, hl, hk⟩ := ih (idx + 1) (fun x hx => h x (List.mem_cons_of_mem _ hx))
    refine ⟨card idx :: cards, ?_, by simp [hl], ?_⟩
    · simp only [cardsFrom, hcard, hc]
    · intro k h1 h2
      cases k with
      | zero => simp [hcard]
      | succ j =>
        have := hk j (by simpa using h1) (by simpa using h2)
        simp only [List.getElem_cons_succ]
        rw [← this]
        congr 1
        omega

set_option maxRecDepth 100000 in
/-- The opening tag of a slide names the class `active` exactly when the card is
the active one. -/
theorem slideHtml_active_iff (b : Browser) (c : Card) :
    lit "\n                    <div class=\"carousel-item active\">" <+: slideHtml b c ↔
      c.active = true := by
  constructor
  · intro h
    cases hact : c.active with
    | true => rfl
    | false =>
      exfalso
      have hB : (slideOpen false ++
          lit "\n                        <div class=\"card news-card shadow-sm\" role=\"button\" onclick=\"window.open('") <+:
          slideHtml b c := by
        unfold slideHtml
        rw [hact]
        simp only [List.append_assoc]
        exact ⟨_, rfl⟩
      have hAB := List.prefix_of_prefix_length_le h hB (by decide)
      revert hAB
      decide
  · intro h
    unfold slideHtml
    rw [h]
    have e : slideOpen true = lit "\n                    <div class=\"carousel-item active\">" := by
      decide
    rw [e]
    simp only [List.append_assoc]
    exact ⟨_, rfl⟩

/-- C5, as the code has it: when the request of `loadTopic(t)` is answered with a
success status and a body whose `items` is a list of N entries (an absent `items`,
or one that is not a list, counts as N = 0), the container holds the panel "No
articles found" for N = 0. Otherwise, when each of the first 20 entries is an
object whose properties are strings or absent, it holds a carousel of exactly
min(N, 20) slides; the k-th has link, title, image and summary of the k-th item,
with the defaults `#`, `Untitled`, the fallback image and the empty summary, and
the first slide and no other is the active one. -/
theorem loadTopic_renders_items (b : Browser) (fetch : Str → FetchOutcome) (dom : Dom)
    (t : Topic) (url : Str) (status : Nat) (items : Option (List Item))
    (hroot : (dom (carouselId t)).isSome = true) (hurl : requestUrl b t = Except.ok url)
    (hfetch : fetch url = FetchOutcome.response status (Body.data items))
    (hok : httpOk status = true)
    (hshape : ∀ it ∈ (items.getD []).take 20, it.wellShaped = true) :
    ((items.getD []).length = 0 →
      loadTopic b fetch dom t (carouselId t) = some (Panel.info t.title) ∧
      (Panel.info t.title).innerHTML b =
        lit "<div class=\"alert alert-info\">No articles found for \"" ++
          escapeHtml t.title ++ lit "\".</div>") ∧
    (0 < (items.getD []).length →
      ∃ cards : List Card,
        loadTopic b fetch dom t (carouselId t) = some (Panel.carousel t.id cards) ∧
        cards.length = min (items.getD []).length 20 ∧
        (∀ (k : Nat) (h1 : k < cards.length) (h2 : k < (items.getD []).length),
          cards[k].active = decide (k = 0) ∧
          cards[k].link = (items.getD [])[k].link.nonEmptyText.getD (lit "#") ∧
          cards[k].title = (items.getD [])[k].title.nonEmptyText.getD (lit "Untitled") ∧
          cards[k].image =
            (firstNonEmpty [(items.getD [])[k].thumbnail.nonEmptyText,
              (items.getD [])[k].enclosureLink.nonEmptyText,
              firstImgSrc (items.getD [])[k].content.text]).getD (FALLBACK_IMAGE b) ∧
          cards[k].description =
            (match firstNonEmpty [(items.getD [])[k].description.nonEmptyText,
                (items.getD [])[k].contentSnippet.nonEmptyText] with
              | some s => summarize (b.textContent s)
              | none => [])) ∧
        (∀ (k : Nat) (h1 : k < cards.length), cards[k].active = true ↔ k = 0) ∧
        (∀ (k : Nat) (h1 : k < cards.length),
          lit "\n                    <div class=\"carousel-item active\">" <+:
            slideHtml b cards[k] ↔ k = 0) ∧
        (Panel.carousel t.id cards).innerHTML b =
          controlsHtml (lit "carouselInner-" ++ t.id) ((cards.map (slideHtml b)).flatten)) := by
  have hload := loadTopic_of_request b fetch dom t url hroot hurl
  have hsettle : settle b t (fetch url) = renderItems b t items := by
    rw [hfetch]
    simp [settle, hok]
  rw [hsettle] at hload
  have hat : loadTopic b fetch dom t (carouselId t) = some (renderItems b t items) := by
    rw [hload, Function.update_same]
  have hrender : renderItems b t items =
      if ((items.getD []).take 20).length = 0 then Panel.info t.title
      else
        match cardsFrom b 0 ((items.getD []).take 20) with
        | .error message => Panel.error t.title message
        | .ok cards => Panel.carousel t.id cards := by
    cases items <;> rfl
  constructor
  · intro h0
    refine ⟨?_, rfl⟩
    rw [hat, hrender, if_pos]
    rw [List.length_take, h0]
    rfl
  · intro hpos
    obtain ⟨cards, hc, hl, hk⟩ := cardsFrom_ok b ((items.getD []).take 20) 0
      (fun it hit => ⟨_, funext (fun i => itemCard_of_shape b it i (hshape it hit))⟩)
    have hlen : cards.length = min (items.getD []).length 20 := by
      rw [hl, List.length_take, Nat.min_comm]
    have hfields : ∀ (k : Nat) (h1 : k < cards.length) (h2 : k < (items.getD []).length),
        Except.ok cards[k] = itemCard b (items.getD [])[k] k := by
      intro k h1 h2
      have h3 : k < ((items.getD []).take 20).length := by rw [← hl]; exact h1
      have := hk k h1 h3
      rw [Nat.zero_add, List.getElem_take] at this
      exact this.symm
    have hwell : ∀ (k : Nat) (_ : k < cards.length) (h2 : k < (items.getD []).length),
        (items.getD [])[k].wellShaped = true := by
      intro k h1 h2
      apply hshape
      have h3 : k < ((items.getD []).take 20).length := by rw [← hl]; exact h1
      have e : ((items.getD []).take 20)[k] = (items.getD [])[k] := List.getElem_take _
      rw [← e]
      exact List.getElem_mem h3
    have hcard : ∀ (k : Nat) (h1 : k < cards.length) (h2 : k < (items.getD []).length),
        cards[k] =
          { active := decide (k = 0)
            link := (items.getD [])[k].link.nonEmptyText.getD (lit "#")
            image := (firstNonEmpty [(items.getD [])[k].thumbnail.nonEmptyText,
              (items.getD [])[k].enclosureLink.nonEmptyText,
              firstImgSrc (items.getD [])[k].content.text]).getD (FALLBACK_IMAGE b)
            title := (items.getD [])[k].title.nonEmptyText.getD (lit "Untitled")
            description :=
              (match firstNonEmpty [(items.getD [])[k].description.nonEmptyText,
                  (items.getD [])[k].contentSnippet.nonEmptyText] with
                | some s => summarize (b.textContent s)
                | none => []) } := by
      intro k h1 h2
      have h4 := hfields k h1 h2
      rw [itemCard_of_shape b _ k (hwell k h1 h2)] at h4
      exact Except.ok.inj h4
    have hactive : ∀ (k : Nat) (h1 : k < cards.length), cards[k].active = true ↔ k = 0 := by
      intro k h1
      have h2 : k < (items.getD []).length := by omega
      rw [hcard k h1 h2]
      simp
    refine ⟨cards, ?_, hlen, ?_, hactive, ?_, rfl⟩
    · rw [hat, hrender, if_neg, hc]
      rw [List.length_take]
      omega
    · intro k h1 h2
      rw [hcard k h1 h2]
      exact ⟨rfl, rfl, rfl, rfl, rfl⟩
    · intro k h1
      rw [slideHtml_active_iff]
      exact hactive k h1

/-- C5 at a sample: a response with two items gives two slides, the first with the
title of the first item, the second with the title of the second. -/
theorem loadTopic_renders_items_witness :
    httpOk 200 = true ∧
    ∃ cards : List Card,
      loadTopic sampleBrowser
          (fun _ => FetchOutcome.response 200
            (Body.data (some [sampleItem (lit "a"), sampleItem (lit "b")])))
          sampleDom sampleTopic (carouselId sampleTopic) =
        some (Panel.carousel sampleTopic.id cards) ∧
      cards.length = 2 ∧
      cards.map (fun c => c.title) = [lit "a", lit "b"] := by
  refine ⟨by decide, ?_⟩
  obtain ⟨cards, h1, h2, h3, -⟩ := (loadTopic_renders_items sampleBrowser
    (fun _ => FetchOutcome.response 200
      (Body.data (some [sampleItem (lit "a"), sampleItem (lit "b")])))
    sampleDom sampleTopic sampleRequest 200 (some [sampleItem (lit "a"), sampleItem (lit "b")])
    (by decide) rfl rfl (by decide) (by decide)).2 (by decide)
  refine ⟨cards, h1, h2, ?_⟩
  have hl : cards.length = 2 := h2
  match cards, hl, h3 with
  | [c0, c1], _, h3 =>
    have e0 := (h3 0 (by simp) (by decide)).2.2.1
    have e1 := (h3 1 (by simp) (by decide)).2.2.1
    simp only [List.map, List.getElem_cons_zero, List.getElem_cons_succ] at e0 e1 ⊢
    rw [e0, e1]
    decide

/-- C5 does not hold of every list of entries: a response whose `items` is the list
of the one entry `null` has N = 1, yet `loadTopic` renders no slide. Reading
`it.thumbnail` throws, and the container holds the error panel. -/
theorem loadTopic_null_item_renders_error :
    [Item.null].length = 1 ∧
    httpOk 200 = true ∧
    loadTopic sampleBrowser
        (fun _ => FetchOutcome.response 200 (Body.data (some [Item.null])))
        sampleDom sampleTopic (carouselId sampleTopic) =
      some (Panel.error (lit "News") (lit "it.thumbnail failed")) ∧
    ∀ cards : List Card,
      loadTopic sampleBrowser
          (fun _ => FetchOutcome.response 200 (Body.data (some [Item.null])))
          sampleDom sampleTopic (carouselId sampleTopic) ≠
        some (Panel.carousel sampleTopic.id cards) := by
  have h : loadTopic sampleBrowser
        (fun _ => FetchOutcome.response 200 (Body.data (some [Item.null])))
        sampleDom sampleTopic (carouselId sampleTopic) =
      some (Panel.error (lit "News") (lit "it.thumbnail failed")) := by
    decide
  refine ⟨rfl, by decide, h, ?_⟩
  intro cards hc
  rw [h] at hc
  cases hc

/-- The first non-empty string of a list that starts with the text of a value. -/
theorem firstNonEmpty_cons (v : Val) (rest : List (Option Str)) :
    firstNonEmpty (v.nonEmptyText :: rest) =
      (match v.nonEmptyText with
        | some s => some s
        | none => firstNonEmpty rest) := by
  cases v with
  | undefined => rfl
  | null => rfl
  | other t x => rfl
  | str s =>
    by_cases hs : s = []
    · simp [Val.nonEmptyText, hs, firstNonEmpty]
    · simp [Val.nonEmptyText, hs, firstNonEmpty]

/-- The expression `a || rest` of line 150 for a string-or-absent `a`. -/
theorem orElseValue_of_shape (a : Val) (rest : Magazine) (h : a.isStringOrAbsent = true) :
    orElseValue a rest =
      (match a.nonEmptyText with
        | some s => Magazine.text s
        | none => rest) := by
  rcases truthy_of_shape a h with ⟨t1, s1, e1, -, x1⟩ | ⟨t1, x1, -⟩
  · rw [x1]
    simp only [orElseValue, t1, if_true]
    rw [e1]
  · rw [x1]
    simp only [orElseValue, t1]
    rfl

/-- The properties of an entry of the interface's shape are strings or absent. -/
theorem magazine_fields (m : Magazine) (h : m.wellShaped = true) :
    m ≠ Magazine.nullish ∧ m.title.isStringOrAbsent = true ∧ m.topic.isStringOrAbsent = true ∧
    m.url.isStringOrAbsent = true ∧ m.feed.isStringOrAbsent = true ∧
    m.rss.isStringOrAbsent = true := by
  cases m with
  | nullish => simp [Magazine.wellShaped] at h
  | other t => simp [Magazine.wellShaped] at h
  | text s => exact ⟨by simp, rfl, rfl, rfl, rfl, rfl⟩
  | record title topic url feed rss =>
    simp only [Magazine.wellShaped, Bool.and_eq_true] at h
    obtain ⟨⟨⟨⟨h1, h2⟩, h3⟩, h4⟩, h5⟩ := h
    exact ⟨by simp, h1, h2, h3, h4, h5⟩

/-- The callback of line 146 on an entry of the interface's shape does not throw,
and the shell renders the topic the specification describes. -/
theorem draftOf_of_shape (idx : Nat) (m : Magazine) (h : m.wellShaped = true) :
    ∃ d : TopicDraft, draftOf idx m = some d ∧ shellTopic d = some (topicAsClaimed idx m) := by
  obtain ⟨hn, hti, hto, hu, hf, hr⟩ := magazine_fields m h
  have hd : draftOf idx m = some
      { id := lit "topic" ++ numToStr idx
        title := m.title.orElse (m.topic.orElse (Val.str (lit "Topic " ++ numToStr (idx + 1))))
        url := orElseValue m.url (orElseValue m.feed (orElseValue m.rss m)) } := by
    cases m with
    | nullish => exact absurd rfl hn
    | other t => rfl
    | text s => rfl
    | record title topic url feed rss => rfl
  refine ⟨_, hd, ?_⟩
  rw [orElse_of_shape _ _ hto, orElse_of_shape _ _ hti, orElseValue_of_shape _ _ hu,
    orElseValue_of_shape _ _ hf, orElseValue_of_shape _ _ hr]
  simp only [shellTopic, topicAsClaimed, firstNonEmpty_cons]
  congr 2
  · cases m.title.nonEmptyText <;> cases m.topic.nonEmptyText <;> rfl
  · cases m.url.nonEmptyText <;> cases m.feed.nonEmptyText <;> cases m.rss.nonEmptyText <;> rfl

/-- The handler's topics for a list that starts with three entries of the
interface's shape. -/
theorem buildTopics_of_shape (m0 m1 m2 : Magazine) (rest : List Magazine)
    (h0 : m0.wellShaped = true) (h1 : m1.wellShaped = true) (h2 : m2.wellShaped = true) :
    buildTopics (m0 :: m1 :: m2 :: rest) =
      some [topicAsClaimed 0 m0, topicAsClaimed 1 m1, topicAsClaimed 2 m2] := by
  obtain ⟨d0, e0, s0⟩ := draftOf_of_shape 0 m0 h0
  obtain ⟨d1, e1, s1⟩ := draftOf_of_shape 1 m1 h1
  obtain ⟨d2, e2, s2⟩ := draftOf_of_shape 2 m2 h2
  simp only [buildTopics, List.take_succ_cons, List.take_zero, draftsFrom, e0, e1, e2,
    shellTopics, s0, s1, s2, Nat.zero_add, Nat.reduceAdd]

/-- A list of at least three entries starts with three entries. -/
theorem exists_cons3 (ms : List Magazine) (h : 3 ≤ ms.length) :
    ∃ m0 m1 m2 rest, ms = m0 :: m1 :: m2 :: rest := by
  match ms, h with
  | m0 :: m1 :: m2 :: rest, _ => exact ⟨m0, m1, m2, rest, rfl⟩

/-- The id of a topic is `topic` followed by its index. -/
theorem draftOf_id (idx : Nat) (m : Magazine) (d : TopicDraft) (h : draftOf idx m = some d) :
    d.id = lit "topic" ++ numToStr idx := by
  cases m with
  | nullish => simp [draftOf] at h
  | other t =>
    simp only [draftOf, Option.some.injEq] at h
    rw [← h]
  | text s =>
    simp only [draftOf, Option.some.injEq] at h
    rw [← h]
  | record title topic url feed rss =>
    simp only [draftOf, Option.some.injEq] at h
    rw [← h]

/-- The shell keeps the id of a topic. -/
theorem shellTopic_id (d : TopicDraft) (t : Topic) (h : shellTopic d = some t) :
    t.id = d.id := by
  unfold shellTopic at h
  split at h
  · simp only [Option.some.injEq] at h
    rw [← h]
  · simp at h
  · simp only [Option.some.injEq] at h
    rw [← h]

/-- When the handler does not throw on a list of at least three entries, it builds
exactly three topics, of ids `topic0`, `topic1`, `topic2`. -/
theorem buildTopics_three (ms : List Magazine) (hlen : 3 ≤ ms.length) (ts : List Topic)
    (h : buildTopics ms = some ts) :
    ∃ t0 t1 t2 : Topic, ts = [t0, t1, t2] ∧ t0.id = lit "topic0" ∧ t1.id = lit "topic1" ∧
      t2.id = lit "topic2" := by
  obtain ⟨m0, m1, m2, rest, e⟩ := exists_cons3 ms hlen
  subst e
  simp only [buildTopics, List.take_succ_cons, List.take_zero, draftsFrom] at h
  cases e0 : draftOf 0 m0 with
  | none => simp [e0] at h
  | some d0 =>
    cases e1 : draftOf (0 + 1) m1 with
    | none => simp [e0, e1] at h
    | some d1 =>
      cases e2 : draftOf (0 + 1 + 1) m2 with
      | none => simp [e0, e1, e2] at h
      | some d2 =>
        simp only [e0, e1, e2, shellTopics] at h
        cases s0 : shellTopic d0 with
        | none => simp [s0] at h
        | some t0 =>
          cases s1 : shellTopic d1 with
          | none => simp [s0, s1] at h
          | some t1 =>
            cases s2 : shellTopic d2 with
            | none => simp [s0, s1, s2] at h
            | some t2 =>
              simp only [s0, s1, s2, Option.some.injEq] at h
              refine ⟨t0, t1, t2, h.symm, ?_, ?_, ?_⟩
              · rw [shellTopic_id d0 t0 s0, draftOf_id 0 m0 d0 e0]
                decide
              · rw [shellTopic_id d1 t1 s1, draftOf_id _ m1 d1 e1]
                decide
              · rw [shellTopic_id d2 t2 s2, draftOf_id _ m2 d2 e2]
                decide

/-- A call of `loadTopic` is logged and leaves accordion, collapse elements and
listeners as they are. -/
theorem callLoadTopic_frame (b : Browser) (p : Page) (t : Topic) :
    (callLoadTopic b p t).calls = p.calls ++ [t] ∧
    (callLoadTopic b p t).listeners = p.listeners ∧
    (callLoadTopic b p t).collapses = p.collapses ∧
    (callLoadTopic b p t).accordion = p.accordion := by
  unfold callLoadTopic
  split <;> exact ⟨rfl, rfl, rfl, rfl⟩

/-- The listener calls `loadTopic` exactly when the placeholder is still shown. -/
theorem onShown_eq (b : Browser) (p : Page) (t : Topic) :
    onShown b p t = if showsPlaceholder p t = true then callLoadTopic b p t else p := by
  unfold onShown showsPlaceholder
  cases p.carousels (carouselId t) with
  | none => rfl
  | some root => rfl

/-- Running listeners keeps the listener list and appends to the call log a
sublist of the topics whose listener ran. -/
theorem foldl_onShown (b : Browser) (fired : List Topic) (p : Page) :
    (fired.foldl (onShown b) p).listeners = p.listeners ∧
    ∃ extra : List Topic, (fired.foldl (onShown b) p).calls = p.calls ++ extra ∧
      extra.Sublist fired := by
  induction fired generalizing p with
  | nil => exact ⟨rfl, [], by simp, List.Sublist.refl _⟩
  | cons t ts ih =>
    obtain ⟨h1, extra, h2, h3⟩ := ih (onShown b p t)
    simp only [List.foldl_cons]
    rw [onShown_eq] at h1 h2
    by_cases hs : showsPlaceholder p t = true
    · rw [if_pos hs] at h1 h2
      have hc := callLoadTopic_frame b p t
      refine ⟨by rw [onShown_eq, if_pos hs, h1, hc.2.1], t :: extra, ?_, h3.cons₂ t⟩
      rw [onShown_eq, if_pos hs, h2, hc.1]
      simp
    · rw [if_neg hs] at h1 h2
      refine ⟨by rw [onShown_eq, if_neg hs, h1], extra, ?_, h3.cons t⟩
      rw [onShown_eq, if_neg hs, h2]

/-- The effect of one `shown.bs.collapse` on listeners and call log. -/
theorem step_shown (b : Browser) (p : Page) (target : Str) :
    (step b p (Event.shown target)).listeners =
      p.listeners.filter (fun t => !(collapseId t == target)) ∧
    ∃ extra : List Topic, (step b p (Event.shown target)).calls = p.calls ++ extra ∧
      extra.Sublist (p.listeners.filter (fun t => collapseId t == target)) := by
  exact foldl_onShown b _ _

/-- A settled request changes neither listeners nor call log. -/
theorem step_settled (b : Browser) (p : Page) (k : Nat) (out : FetchOutcome) :
    (step b p (Event.settled k out)).listeners = p.listeners ∧
    (step b p (Event.settled k out)).calls = p.calls := by
  cases h : p.pending.get? k with
  | none => simp only [step, h, and_self]
  | some t => simp only [step, h, and_self]

/-- Calls made plus listeners still attached never grow for a topic: a listener is
spent when its call is made. -/
theorem step_count_le (b : Browser) (p : Page) (e : Event) (t : Topic) :
    (step b p e).calls.count t + (step b p e).listeners.count t ≤
      p.calls.count t + p.listeners.count t := by
  cases e with
  | settled k out =>
    obtain ⟨h1, h2⟩ := step_settled b p k out
    rw [h1, h2]
  | shown target =>
    obtain ⟨h1, extra, h2, h3⟩ := step_shown b p target
    rw [h1, h2, List.count_append]
    have hsub := h3.count_le t
    have hsplit := List.countP_eq_countP_filter_add p.listeners (· == t)
      (fun x => collapseId x == target)
    simp only [List.count]
    simp only [List.count] at hsub
    omega

/-- The bound of `step_count_le` along a sequence of events. -/
theorem run_count_le (b : Browser) (es : List Event) (p : Page) (t : Topic) :
    (run b p es).calls.count t + (run b p es).listeners.count t ≤
      p.calls.count t + p.listeners.count t := by
  induction es generalizing p with
  | nil => exact Nat.le_refl _
  | cons e es ih =>
    exact Nat.le_trans (ih (step b p e)) (step_count_le b p e t)

/-- The call log only grows. -/
theorem run_calls_append (b : Browser) (es : List Event) (p : Page) :
    ∃ extra : List Topic, (run b p es).calls = p.calls ++ extra := by
  induction es generalizing p with
  | nil => exact ⟨[], by simp [run]⟩
  | cons e es ih =>
    obtain ⟨extra, h⟩ := ih (step b p e)
    cases e with
    | settled k out =>
      refine ⟨extra, ?_⟩
      show (run b (step b p (Event.settled k out)) es).calls = _
      rw [h, (step_settled b p k out).2]
    | shown target =>
      obtain ⟨-, extra0, h2, -⟩ := step_shown b p target
      refine ⟨extra0 ++ extra, ?_⟩
      show (run b (step b p (Event.shown target)) es).calls = _
      rw [h, h2, List.append_assoc]

/-- A call of `loadTopic` for a topic is either there from the start or follows a
`shown.bs.collapse` on the collapse element of the topic. -/
theorem run_calls_mem (b : Browser) (es : List Event) (p : Page) (t : Topic)
    (h : t ∈ (run b p es).calls) : t ∈ p.calls ∨ Event.shown (collapseId t) ∈ es := by
  induction es generalizing p with
  | nil => exact Or.inl h
  | cons e es ih =>
    have h' : t ∈ (run b (step b p e) es).calls := h
    rcases ih (step b p e) h' with h1 | h1
    · cases e with
      | settled k out =>
        rw [(step_settled b p k out).2] at h1
        exact Or.inl h1
      | shown target =>
        obtain ⟨-, extra, h2, h3⟩ := step_shown b p target
        rw [h2] at h1
        rcases List.mem_append.mp h1 with h1 | h1
        · exact Or.inl h1
        · have hf := h3.subset h1
          have ht : collapseId t = target := by
            simpa using (List.mem_filter.mp hf).2
          rw [ht]
          exact Or.inr (List.mem_cons_self _ _)
    · exact Or.inr (List.mem_cons_of_mem _ h1)

/-- The listeners of a collapse element stay attached while no `shown.bs.collapse`
is dispatched on it. -/
theorem run_listeners_filter (b : Browser) (es : List Event) (p : Page) (x : Str)
    (h : Event.shown x ∉ es) :
    (run b p es).listeners.filter (fun t => collapseId t == x) =
      p.listeners.filter (fun t => collapseId t == x) := by
  induction es generalizing p with
  | nil => rfl
  | cons e es ih =>
    have hes : Event.shown x ∉ es := fun h1 => h (List.mem_cons_of_mem _ h1)
    show (run b (step b p e) es).listeners.filter _ = _
    rw [ih (step b p e) hes]
    cases e with
    | settled k out => rw [(step_settled b p k out).1]
    | shown target =>
      have hne : target ≠ x := by
        intro e1
        apply h
        rw [e1]
        exact List.mem_cons_self _ _
      rw [(step_shown b p target).1, List.filter_filter]
      apply List.filter_congr
      intro t _
      by_cases hx : collapseId t = x
      · have : ¬ collapseId t = target := fun e2 => hne (e2.symm.trans hx)
        simp [hx, this, hne.symm]
      · simp [hx]

/-- A call of `loadTopic(t)` writes to no container but `carousel-<t.id>`, and the
only load it leaves pending is its own. -/
theorem callLoadTopic_carousels (b : Browser) (p : Page) (t : Topic) :
    (∀ k : Str, k ≠ carouselId t → (callLoadTopic b p t).carousels k = p.carousels k) ∧
    (∀ x ∈ (callLoadTopic b p t).pending, x ∈ p.pending ∨ x = t) := by
  unfold callLoadTopic loadTopicStart
  cases p.carousels (carouselId t) with
  | none => exact ⟨fun _ _ => rfl, fun x hx => Or.inl hx⟩
  | some root =>
    cases requestUrl b t with
    | error message =>
      refine ⟨fun k hk => ?_, fun x hx => Or.inl hx⟩
      exact Function.update_noteq hk _ _
    | ok fullUrl =>
      refine ⟨fun _ _ => rfl, fun x hx => ?_⟩
      rcases List.mem_append.mp hx with h | h
      · exact Or.inl h
      · exact Or.inr (List.mem_singleton.mp h)

/-- One event keeps every pending load among the calls made, and changes no
container other than those of topics called. -/
theorem step_carousels (b : Browser) (p : Page) (e : Event)
    (hp : ∀ t ∈ p.pending, t ∈ p.calls) :
    (∀ t ∈ (step b p e).pending, t ∈ (step b p e).calls) ∧
    (∀ k : Str, (∀ t ∈ (step b p e).calls, carouselId t ≠ k) →
      (step b p e).carousels k = p.carousels k) := by
  cases e with
  | settled i out =>
    cases h : p.pending.get? i with
    | none =>
      have e1 : step b p (Event.settled i out) = p := by simp only [step, h]
      rw [e1]
      exact ⟨hp, fun _ _ => rfl⟩
    | some t =>
      have e1 : step b p (Event.settled i out) =
          { p with pending := p.pending.eraseIdx i,
                   carousels := loadTopicResume b p.carousels t out } := by
        simp only [step, h]
      rw [e1]
      have ht : t ∈ p.pending := List.get?_mem h
      refine ⟨fun x hx => hp x (List.mem_of_mem_eraseIdx hx), fun k hk => ?_⟩
      unfold loadTopicResume
      exact Function.update_noteq (fun e1 => hk t (hp t ht) e1.symm) _ _
  | shown target =>
    have key : ∀ (fired : List Topic) (q : Page), (∀ t ∈ q.pending, t ∈ q.calls) →
        (∀ t ∈ (fired.foldl (onShown b) q).pending, t ∈ (fired.foldl (onShown b) q).calls) ∧
        (∀ k : Str, (∀ t ∈ (fired.foldl (onShown b) q).calls, carouselId t ≠ k) →
          (fired.foldl (onShown b) q).carousels k = q.carousels k) := by
      intro fired
      induction fired with
      | nil => exact fun q hq => ⟨hq, fun _ _ => rfl⟩
      | cons t ts ih =>
        intro q hq
        simp only [List.foldl_cons]
        by_cases hs : showsPlaceholder q t = true
        · have e1 : onShown b q t = callLoadTopic b q t := by rw [onShown_eq, if_pos hs]
          have hc := callLoadTopic_frame b q t
          have hd := callLoadTopic_carousels b q t
          have hq1 : ∀ x ∈ (onShown b q t).pending, x ∈ (onShown b q t).calls := by
            rw [e1, hc.1]
            intro x hx
            rcases hd.2 x hx with h | h
            · exact List.mem_append_left _ (hq x h)
            · rw [h]
              exact List.mem_append_right _ (List.mem_singleton_self t)
          obtain ⟨i1, i2⟩ := ih (onShown b q t) hq1
          refine ⟨i1, fun k hk => ?_⟩
          rw [i2 k hk, e1]
          apply hd.1
          obtain ⟨extra, hex⟩ := (foldl_onShown b ts (onShown b q t)).2
          have hmem : t ∈ (ts.foldl (onShown b) (onShown b q t)).calls := by
            rw [hex.1, e1, hc.1]
            exact List.mem_append_left _ (List.mem_append_right _ (List.mem_singleton_self t))
          exact fun e2 => hk t hmem e2.symm
        · have e1 : onShown b q t = q := by rw [onShown_eq, if_neg hs]
          rw [e1]
          exact ih q hq
    exact key _ _ hp

/-- Along a sequence of events a container changes only if `loadTopic` was called
for its topic. -/
theorem run_carousels (b : Browser) (es : List Event) (p : Page)
    (hp : ∀ t ∈ p.pending, t ∈ p.calls) (k : Str)
    (hk : ∀ t ∈ (run b p es).calls, carouselId t ≠ k) :
    (run b p es).carousels k = p.carousels k := by
  induction es generalizing p with
  | nil => rfl
  | cons e es ih =>
    obtain ⟨h1, h2⟩ := step_carousels b p e hp
    have h3 : (run b (step b p e) es).carousels k = (step b p e).carousels k := ih _ h1 hk
    show (run b (step b p e) es).carousels k = _
    rw [h3]
    apply h2
    intro t ht
    obtain ⟨extra, hex⟩ := run_calls_append b es (step b p e)
    apply hk
    show t ∈ (run b (step b p e) es).calls
    rw [hex]
    exact List.mem_append_left _ ht
/-- Topics with the same carousel container or collapse element have the same id. -/
theorem id_of_element_id (s t : Topic) :
    (carouselId s = carouselId t → s.id = t.id) ∧ (collapseId s = collapseId t → s.id = t.id) :=
  ⟨fun h => List.append_cancel_left h, fun h => List.append_cancel_left h⟩


/-- The first `shown.bs.collapse` on the collapse element of `t`, its listener being
the only one there: `loadTopic(t)` is called exactly when the placeholder is still
shown, and the listener is gone afterwards. -/
theorem step_first_shown (b : Browser) (q : Page) (t : Topic)
    (h : q.listeners.filter (fun s => collapseId s == collapseId t) = [t]) :
    (step b q (Event.shown (collapseId t))).calls =
      (if showsPlaceholder q t = true then q.calls ++ [t] else q.calls) ∧
    (step b q (Event.shown (collapseId t))).listeners.count t = 0 := by
  constructor
  · simp only [step, h, List.foldl_cons, List.foldl_nil]
    rw [onShown_eq]
    have e : showsPlaceholder
        { q with listeners := q.listeners.filter (fun s => !(collapseId s == collapseId t)) } t =
        showsPlaceholder q t := rfl
    rw [e]
    by_cases hs : showsPlaceholder q t = true
    · rw [if_pos hs, if_pos hs]
      exact (callLoadTopic_frame b _ t).1
    · rw [if_neg hs, if_neg hs]
  · rw [(step_shown b q (collapseId t)).1]
    apply List.count_eq_zero.mpr
    intro hm
    have := (List.mem_filter.mp hm).2
    simp at this

/-- The handler on a list of at least three entries for which it builds the topics
`t0`, `t1`, `t2`: the shell is rendered, the first topic is loaded, the other two
get their listener. -/
theorem init_of_topics (b : Browser) (ms : List Magazine) (t0 t1 t2 : Topic)
    (hlen : 3 ≤ ms.length) (h : buildTopics ms = some [t0, t1, t2]) :
    init b (some ms) =
      { callLoadTopic b (shellPage [t0, t1, t2]) t0 with listeners := [t1, t2] } := by
  have hc := callLoadTopic_frame b (shellPage [t0, t1, t2]) t0
  unfold init
  simp only [h]
  rw [if_neg (by omega)]
  simp only [wire, shellPage, List.map_cons, List.map_nil, List.contains_cons, beq_self_eq_true,
    Bool.true_or, Bool.or_true, if_true]
  simp only [shellPage, List.map_cons, List.map_nil] at hc
  simp [hc.2.1, hc.2.2.1]

/-- C7, as the code has it: when `magazines` is absent, not a list, or a list of
fewer than 3 entries, the handler renders the warning and nothing else: no topic
panel exists, no listener is attached, `loadTopic` is not called and no request is
made. When the list has at least 3 entries and each of the first 3 is a bare string
or an object whose `title`, `topic`, `url`, `feed` and `rss` are strings or absent,
the shell holds exactly 3 topics built from the first 3 entries in order, with the
ids `topic0`, `topic1`, `topic2`; a title is the entry's `title`, else its `topic`,
else `Topic N` with N the position plus one; a URL is the entry's `url`, else
`feed`, else `rss`, else the entry itself. -/
theorem init_builds_topics (b : Browser) (magazines : Option (List Magazine)) :
    ((magazines = none ∨ ∃ ms, magazines = some ms ∧ ms.length < 3) →
      init b magazines = warningPage ∧
      (init b magazines).accordion = Accordion.warning ∧
      Accordion.warning.innerHTML = some warningHtml ∧
      (∀ k : Str, (init b magazines).carousels k = none) ∧
      (init b magazines).listeners = [] ∧
      (init b magazines).calls = [] ∧
      (init b magazines).requests = [] ∧
      (init b magazines).pending = []) ∧
    (∀ ms : List Magazine, magazines = some ms → 3 ≤ ms.length →
      (∀ m ∈ ms.take 3, m.wellShaped = true) →
      ∃ (m0 m1 m2 : Magazine) (rest : List Magazine), ms = m0 :: m1 :: m2 :: rest ∧
        buildTopics ms = some [topicAsClaimed 0 m0, topicAsClaimed 1 m1, topicAsClaimed 2 m2] ∧
        (init b magazines).accordion =
          Accordion.shell [topicAsClaimed 0 m0, topicAsClaimed 1 m1, topicAsClaimed 2 m2] ∧
        (topicAsClaimed 0 m0).id = lit "topic0" ∧
        (topicAsClaimed 1 m1).id = lit "topic1" ∧
        (topicAsClaimed 2 m2).id = lit "topic2") ∧
    (∀ (k : Nat) (m : Magazine),
      (topicAsClaimed k m).id = lit "topic" ++ numToStr k ∧
      (topicAsClaimed k m).title =
        (firstNonEmpty [m.title.nonEmptyText, m.topic.nonEmptyText]).getD
          (lit "Topic " ++ numToStr (k + 1)) ∧
      (topicAsClaimed k m).url =
        (match firstNonEmpty [m.url.nonEmptyText, m.feed.nonEmptyText, m.rss.nonEmptyText] with
          | some s => Magazine.text s
          | none => m)) ∧
    (∀ s : Str, (topicAsClaimed 0 (Magazine.text s)).title = lit "Topic 1" ∧
      (topicAsClaimed 0 (Magazine.text s)).url = Magazine.text s) ∧
    buildTopics sampleMagazines =
      some [{ id := lit "topic0", title := lit "Topic 1",
              url := Magazine.text (lit "https://flipboard.com/@a/x") },
            { id := lit "topic1", title := lit "Tech",
              url := Magazine.text (lit "https://example.org/t.rss") },
            { id := lit "topic2", title := lit "Topic 3",
              url := Magazine.text (lit "https://example.org/c.rss") }] := by
  refine ⟨?_, ?_, fun k m => ⟨rfl, rfl, rfl⟩, fun s => ⟨rfl, rfl⟩, by decide⟩
  · intro h
    have hw : init b magazines = warningPage := by
      rcases h with h | ⟨ms, h, hlen⟩
      · rw [h]
        rfl
      · rw [h]
        unfold init
        simp only
        rw [if_pos hlen]
    rw [hw]
    exact ⟨rfl, rfl, rfl, fun _ => rfl, rfl, rfl, rfl, rfl⟩
  · intro ms hms hlen hshape
    obtain ⟨m0, m1, m2, rest, e⟩ := exists_cons3 ms hlen
    subst e
    have hb := buildTopics_of_shape m0 m1 m2 rest
      (hshape m0 (by simp)) (hshape m1 (by simp)) (hshape m2 (by simp))
    refine ⟨m0, m1, m2, rest, rfl, hb, ?_, rfl, rfl, rfl⟩
    rw [hms, init_of_topics b _ _ _ _ hlen hb]
    exact (callLoadTopic_frame b _ _).2.2.2

/-- C7 does not hold of every list of at least 3 entries: on a list whose first
entry is `null` the handler throws at line 149, outside any `try`. It builds no
topic and writes nothing, neither the shell nor the warning. -/
theorem init_null_entry_builds_nothing :
    3 ≤ sampleNullMagazines.length ∧
    buildTopics sampleNullMagazines = none ∧
    (init sampleBrowser (some sampleNullMagazines)).accordion = Accordion.untouched ∧
    (init sampleBrowser (some sampleNullMagazines)).accordion.innerHTML = none ∧
    (init sampleBrowser (some sampleNullMagazines)).accordion ≠ Accordion.warning ∧
    (∀ topics : List Topic,
      (init sampleBrowser (some sampleNullMagazines)).accordion ≠ Accordion.shell topics) ∧
    (init sampleBrowser (some sampleNullMagazines)).calls = [] := by
  have h : init sampleBrowser (some sampleNullMagazines) = untouchedPage := rfl
  rw [h]
  refine ⟨by decide, by decide, rfl, rfl, ?_, ?_, rfl⟩
  · intro e
    cases e
  · intro topics e
    cases e

/-- The page right after the handler, for a list on which it builds the topics
`t0`, `t1`, `t2`. -/
theorem init_facts (b : Browser) (ms : List Magazine) (t0 t1 t2 : Topic)
    (hlen : 3 ≤ ms.length) (hb : buildTopics ms = some [t0, t1, t2]) :
    (init b (some ms)).calls = [t0] ∧
    (init b (some ms)).listeners = [t1, t2] ∧
    (∀ t ∈ (init b (some ms)).pending, t ∈ (init b (some ms)).calls) ∧
    (∀ k : Str, k ≠ carouselId t0 →
      (init b (some ms)).carousels k = shellDom [t0, t1, t2] k) := by
  rw [init_of_topics b ms t0 t1 t2 hlen hb]
  have hc := callLoadTopic_frame b (shellPage [t0, t1, t2]) t0
  have hd := callLoadTopic_carousels b (shellPage [t0, t1, t2]) t0
  refine ⟨hc.1, rfl, ?_, fun k hk => hd.1 k hk⟩
  intro t ht
  show t ∈ (callLoadTopic b _ _).calls
  rw [hc.1]
  rcases hd.2 t ht with h | h
  · exact absurd h (List.not_mem_nil t)
  · rw [h]
    exact List.mem_append_right _ (List.mem_singleton_self _)

/-- The pages reached from the handler on three topics of distinct ids: the
placeholder of the second and of the third topic is still shown when no
`shown.bs.collapse` has been dispatched on its collapse element, and `loadTopic` has
not been called for it. -/
theorem placeholder_until_shown (b : Browser) (ms : List Magazine) (t0 t1 t2 : Topic)
    (hlen : 3 ≤ ms.length) (hb : buildTopics ms = some [t0, t1, t2])
    (d01 : t0.id ≠ t1.id) (d02 : t0.id ≠ t2.id) (d12 : t1.id ≠ t2.id)
    (pre : List Event) (t : Topic) (ht : t = t1 ∨ t = t2)
    (hpre : Event.shown (collapseId t) ∉ pre) :
    t ∉ (run b (init b (some ms)) pre).calls ∧
    showsPlaceholder (run b (init b (some ms)) pre) t = true ∧
    (run b (init b (some ms)) pre).listeners.filter
      (fun s => collapseId s == collapseId t) = [t] := by
  obtain ⟨hcalls, hlis, hpend, hdom⟩ := init_facts b ms t0 t1 t2 hlen hb
  have hid0 : t.id ≠ t0.id := by
    rcases ht with h | h <;> rw [h]
    · exact fun e => d01 e.symm
    · exact fun e => d02 e.symm
  have hcall : ∀ s ∈ (run b (init b (some ms)) pre).calls, s.id ≠ t.id := by
    intro s hs e
    rcases run_calls_mem b pre _ s hs with h | h
    · rw [hcalls] at h
      rw [List.mem_singleton.mp h] at e
      exact hid0 e.symm
    · have : collapseId s = collapseId t := by unfold collapseId; rw [e]
      rw [this] at h
      exact hpre h
  refine ⟨fun hm => hcall t hm rfl, ?_, ?_⟩
  · have hk : ∀ s ∈ (run b (init b (some ms)) pre).calls, carouselId s ≠ carouselId t :=
      fun s hs e => hcall s hs ((id_of_element_id s t).1 e)
    have h1 := run_carousels b pre _ hpend (carouselId t) hk
    have h2 := hdom (carouselId t) (fun e => hid0 ((id_of_element_id _ _).1 e))
    unfold showsPlaceholder
    rw [h1, h2]
    have c01 : (carouselId t0 == carouselId t1) = false := by
      rw [beq_eq_false_iff_ne]
      exact fun e => d01 ((id_of_element_id _ _).1 e)
    have c02 : (carouselId t0 == carouselId t2) = false := by
      rw [beq_eq_false_iff_ne]
      exact fun e => d02 ((id_of_element_id _ _).1 e)
    have c12 : (carouselId t1 == carouselId t2) = false := by
      rw [beq_eq_false_iff_ne]
      exact fun e => d12 ((id_of_element_id _ _).1 e)
    rcases ht with h | h <;> rw [h]
    · simp only [shellDom, List.find?_cons, c01, beq_self_eq_true, Option.map_some',
        Panel.hasSpinner]
    · simp only [shellDom, List.find?_cons, c02, c12, beq_self_eq_true, Option.map_some',
        Panel.hasSpinner]
  · rw [run_listeners_filter b pre _ _ hpre, hlis]
    have c12 : (collapseId t1 == collapseId t2) = false := by
      rw [beq_eq_false_iff_ne]
      exact fun e => d12 ((id_of_element_id _ _).2 e)
    have c21 : (collapseId t2 == collapseId t1) = false := by
      rw [beq_eq_false_iff_ne]
      exact fun e => d12 ((id_of_element_id _ _).2 e).symm
    rcases ht with h | h <;> rw [h]
    · simp only [List.filter_cons, beq_self_eq_true, c21, if_true, List.filter_nil]
      rfl
    · simp only [List.filter_cons, beq_self_eq_true, c12, if_true, List.filter_nil]
      rfl

/-- C9: for a valid list, one of at least three entries on which the handler builds
its topics (it does for entries of the interface's shape; it throws on an entry that
is `null` or `undefined` and on a title that is neither a string nor falsy), and
for every sequence of events (`shown.bs.collapse` on any element, requests settling
in any order): `loadTopic` is called at most once per topic; the call for the first
topic is made by the handler itself; a call for another topic is made only after a
`shown.bs.collapse` on its collapse element; on the first such event the call is
made if and only if the container still shows the placeholder (which it does), and
whatever follows, the topic has been called exactly once. -/
theorem deferred_loads_once (b : Browser) (ms : List Magazine) (hlen : 3 ≤ ms.length)
    (hbuild : (buildTopics ms).isSome = true) (es : List Event) :
    ∃ t0 t1 t2 : Topic, buildTopics ms = some [t0, t1, t2] ∧
      (init b (some ms)).calls = [t0] ∧
      (init b (some ms)).listeners = [t1, t2] ∧
      (∀ t : Topic, (run b (init b (some ms)) es).calls.count t ≤ 1) ∧
      (∀ t : Topic, t ∈ (run b (init b (some ms)) es).calls →
        t = t0 ∨ Event.shown (collapseId t) ∈ es) ∧
      (∀ t : Topic, t = t1 ∨ t = t2 → ∀ pre post : List Event,
        es = pre ++ Event.shown (collapseId t) :: post →
        Event.shown (collapseId t) ∉ pre →
          t ∉ (run b (init b (some ms)) pre).calls ∧
          (run b (init b (some ms)) (pre ++ [Event.shown (collapseId t)])).calls =
            (if showsPlaceholder (run b (init b (some ms)) pre) t = true
              then (run b (init b (some ms)) pre).calls ++ [t]
              else (run b (init b (some ms)) pre).calls) ∧
          showsPlaceholder (run b (init b (some ms)) pre) t = true ∧
          (run b (init b (some ms)) (pre ++ [Event.shown (collapseId t)])).calls.count t = 1 ∧
          (run b (init b (some ms)) es).calls.count t = 1) := by
  obtain ⟨ts, hts⟩ := Option.isSome_iff_exists.mp hbuild
  obtain ⟨t0, t1, t2, e, i0, i1, i2⟩ := buildTopics_three ms hlen ts hts
  subst e
  have x01 : lit "topic0" ≠ lit "topic1" := by decide
  have x02 : lit "topic0" ≠ lit "topic2" := by decide
  have x12 : lit "topic1" ≠ lit "topic2" := by decide
  have d01 : t0.id ≠ t1.id := by rw [i0, i1]; exact x01
  have d02 : t0.id ≠ t2.id := by rw [i0, i2]; exact x02
  have d12 : t1.id ≠ t2.id := by rw [i1, i2]; exact x12
  obtain ⟨hcalls, hlis, hpend, hdom⟩ := init_facts b ms t0 t1 t2 hlen hts
  have n01 : t0 ≠ t1 := fun h => d01 (congrArg Topic.id h)
  have n02 : t0 ≠ t2 := fun h => d02 (congrArg Topic.id h)
  have n12 : t1 ≠ t2 := fun h => d12 (congrArg Topic.id h)
  have hbound : ∀ t : Topic, (run b (init b (some ms)) es).calls.count t ≤ 1 := by
    intro t
    have h := run_count_le b es (init b (some ms)) t
    rw [hcalls, hlis] at h
    have h0 : List.count t [t0] + List.count t [t1, t2] ≤ 1 := by
      simp only [List.count_cons, List.count_nil, beq_iff_eq]
      by_cases e0 : t0 = t
      · subst e0
        simp [n01.symm, n02.symm]
      · by_cases e1 : t1 = t
        · subst e1
          simp [n01, n12.symm]
        · by_cases e2 : t2 = t
          · subst e2
            simp [n02, n12]
          · simp [e0, e1, e2]
    omega
  refine ⟨t0, t1, t2, hts, hcalls, hlis, hbound, ?_, ?_⟩
  · intro t ht
    rcases run_calls_mem b es _ t ht with h | h
    · rw [hcalls] at h
      exact Or.inl (List.mem_singleton.mp h)
    · exact Or.inr h
  · intro t ht pre post hes hpre
    obtain ⟨hnot, hph, hfil⟩ :=
      placeholder_until_shown b ms t0 t1 t2 hlen hts d01 d02 d12 pre t ht hpre
    have hrun : run b (init b (some ms)) (pre ++ [Event.shown (collapseId t)]) =
        step b (run b (init b (some ms)) pre) (Event.shown (collapseId t)) := by
      simp only [run, List.foldl_append, List.foldl_cons, List.foldl_nil]
    obtain ⟨hstep, -⟩ := step_first_shown b _ t hfil
    have hcount1 : (run b (init b (some ms))
        (pre ++ [Event.shown (collapseId t)])).calls.count t = 1 := by
      rw [hrun, hstep, if_pos hph, List.count_append, List.count_eq_zero.mpr hnot]
      simp
    refine ⟨hnot, by rw [hrun, hstep], hph, hcount1, ?_⟩
    have hsplit : run b (init b (some ms)) es =
        run b (run b (init b (some ms)) (pre ++ [Event.shown (collapseId t)])) post := by
      rw [hes]
      simp only [run, List.foldl_append, List.foldl_cons, List.foldl_nil]
    obtain ⟨extra, hex⟩ := run_calls_append b post
      (run b (init b (some ms)) (pre ++ [Event.shown (collapseId t)]))
    have hge : 1 ≤ (run b (init b (some ms)) es).calls.count t := by
      rw [hsplit, hex, List.count_append, hcount1]
      omega
    exact Nat.le_antisymm (hbound t) hge

set_option maxRecDepth 100000 in
/-- C9 at a sample: three topics, the second panel expanded twice; every topic is
called at most once, and the calls are those of `topic0`, `topic1`, `topic2`. -/
theorem deferred_loads_once_witness :
    3 ≤ sampleMagazines.length ∧
    (buildTopics sampleMagazines).isSome = true ∧
    (∀ t : Topic,
      (run sampleBrowser (init sampleBrowser (some sampleMagazines)) sampleEvents).calls.count t
        ≤ 1) ∧
    (run sampleBrowser (init sampleBrowser (some sampleMagazines)) sampleEvents).calls.map
        (fun t => t.id) = [lit "topic0", lit "topic1", lit "topic2"] := by
  obtain ⟨_, _, _, _, _, _, h, _⟩ :=
    deferred_loads_once sampleBrowser sampleMagazines (by decide) (by decide) sampleEvents
  exact ⟨by decide, by decide, h, by decide⟩

end XBoard
